import Mathlib

set_option linter.all false

namespace Cerberus

/-! ## String primitives

The Python source compares, splits, trims and lower-cases strings.  These
helpers implement those operations by structural recursion on the character
list of a `String`, so that every definition evaluates inside the kernel.
Characters are compared by code point, exactly as Python compares `str`
values. -/

/-- Code-point lexicographic `≤` on character lists: the order Python uses to
compare and sort strings. -/
def charListLe : List Char → List Char → Bool
  | [], _ => true
  | _ :: _, [] => false
  | a :: as, b :: bs =>
      if a.toNat = b.toNat then charListLe as bs else decide (a.toNat < b.toNat)

/-- Python string `<=` (used by `sorted`). -/
def strLeB (a b : String) : Bool := charListLe a.toList b.toList

/-- Python string `<=`, as a proposition. -/
def strLe (a b : String) : Prop := strLeB a b = true

instance : DecidableRel strLe := fun a b => instDecidableEqBool (strLeB a b) true

/-- Python `sorted` on a list of strings: ascending code-point lexicographic
order (not semver-aware). -/
def pySorted (l : List String) : List String := List.insertionSort strLe l

/-- Python `str.split("/")`, by structural recursion. -/
def splitSlashAux : List Char → List Char → List String
  | [], acc => [String.mk acc.reverse]
  | c :: rest, acc =>
      if c = '/' then String.mk acc.reverse :: splitSlashAux rest []
      else splitSlashAux rest (c :: acc)

def splitSlash (s : String) : List String := splitSlashAux s.toList []

/-- Characters removed by Python `str.strip()` (the common ASCII whitespace). -/
def isSpaceChar (c : Char) : Bool := c = ' ' ∨ c = '\t' ∨ c = '\n' ∨ c = '\r'

/-- Python `str.strip()`. -/
def pyStrip (s : String) : String :=
  String.mk (((s.toList.dropWhile isSpaceChar).reverse.dropWhile isSpaceChar).reverse)

/-- Python `str.lower()` (ASCII case mapping; the severity vocabulary handled
by the source is ASCII). -/
def lowerChar (c : Char) : Char :=
  if 65 ≤ c.toNat ∧ c.toNat ≤ 90 then Char.ofNat (c.toNat + 32) else c

def pyLower (s : String) : String := String.mk (s.toList.map lowerChar)

/-- Python `str.startswith` / the fixed part of an `rglob` pattern such as
`Dockerfile*`. -/
def strStarts (s pre : String) : Bool := pre.toList.isPrefixOf s.toList

/-- Python suffix match, used for extension patterns such as `*.jar`. -/
def strEnds (s suf : String) : Bool := suf.toList.isSuffixOf s.toList

/-- Python substring membership `sub in s` (used by
`_generate_remediation`). -/
def subSearch (sub : List Char) : List Char → Bool
  | [] => sub.isEmpty
  | c :: t => sub.isPrefixOf (c :: t) || subSearch sub t

def strContains (s sub : String) : Bool := subSearch sub.toList s.toList

/-! ## Paths and the build-root filter (src/utils/artifact_detector.py) -/

/-- A filesystem path in canonical form: the component list of an absolute,
symlink-resolved path, as produced by Python `Path(...).resolve()`.  All path
comparisons performed by `_filter_build_roots` happen on such canonicalized
strings (`str(Path(...).resolve())`), so the embedding works with canonical
component lists directly; `str(dir)` and the canonical component list are in
bijection on a fixed tree. -/
abbrev CPath := List String

/-- One step of Python path resolution: appending a single component to an
already-canonical directory (`..` drops the last component, `.` and empty
components are no-ops). -/
def resolveStep (dir : CPath) (comp : String) : CPath :=
  if comp = "" ∨ comp = "." then dir
  else if comp = ".." then dir.dropLast
  else dir ++ [comp]

/-- `(current_dir / module_name).resolve()` from `_filter_build_roots`:
resolves a declared module path (possibly containing `/`, `.` and `..`)
against the canonical directory of the declaring descriptor; an absolute
module path replaces the directory, as `Path./` does. -/
def resolveRel (dir : CPath) (m : String) : CPath :=
  (splitSlash m).foldl resolveStep (if strStarts m ("/") then [] else dir)

/-- One entry of `artifacts['build_files']` as consumed by
`_filter_build_roots`: the dict `{'type': ..., 'path': ..., 'dir': ...}`.
The function re-reads the descriptor file at `b['path']` with
`xml.etree.ElementTree`; the embedding carries that filesystem content as the
`modules` field, the outcome of `ET.parse` plus `<module>` extraction:

* `none` — `ET.parse` (or `getroot`/`findall`) raised, i.e. the descriptor is
  unparsable; the `except` clause swallows the exception before any child
  directory is recorded;
* `some entries` — the parsed list of `<module>` elements in document order,
  each carrying its optional text (`module.text` is `None` for an empty
  element, which makes `module.text.strip()` raise `AttributeError` mid-loop;
  edges recorded before that point persist). -/
structure BuildFile where
  btype : String
  dir : CPath
  modules : Option (List (Option String))
deriving DecidableEq, Repr

/-- The child directories recorded for one descriptor by the parsing loop of
`_filter_build_roots`: nothing for non-Maven descriptors and unparsable
descriptors; for a parsed Maven descriptor, one resolved path per `<module>`
element with text, up to (and excluding) the first text-less element, whose
`AttributeError` aborts the loop. -/
def moduleEdges (b : BuildFile) : List CPath :=
  if b.btype = "maven" then
    match b.modules with
    | none => []
    | some entries =>
        ((entries.takeWhile Option.isSome).filterMap id).map
          (fun m => resolveRel b.dir (pyStrip m))
  else []

/-- The `child_dirs` set accumulated by `_filter_build_roots`, as a list (the
Python `set` is only used for membership tests). -/
def childDirs (bs : List BuildFile) : List CPath :=
  (bs.map moduleEdges).join

/-- `_filter_build_roots` (src/utils/artifact_detector.py, lines 171-225):
keeps the descriptors whose canonicalized directory is not registered as the
canonicalized resolved child of any Maven descriptor in the list. -/
def filterBuildRoots (bs : List BuildFile) : List BuildFile :=
  if bs.isEmpty then []
  else bs.filter (fun b => !(childDirs bs).contains b.dir)

example : pySorted (["2.0", "1.0"]) = ["1.0", "2.0"] := by decide
example : splitSlash ("../b/c") = ["..", "b", "c"] := by decide
example : pyLower ("ERROR") = "error" := by decide
example : pyStrip ("  a ") = "a" := by decide
example : strStarts ("Dockerfile.dev") ("Dockerfile") = true := by decide
example : strEnds ("x/app.jar") (".jar") = true := by decide
example : strContains ("java-maven") ("maven") = true := by decide

/-- The multi-module scenario of the specification: the repository root
`pom.xml` declares modules `[a, b]`. -/
def rootDescriptor : BuildFile :=
  { btype := "maven", dir := ["repo"], modules := some [some ("a"), some ("b")] }

/-- `a/pom.xml`: declares no modules. -/
def aDescriptor : BuildFile :=
  { btype := "maven", dir := ["repo", "a"], modules := some [] }

/-- `b/pom.xml`: declares module `c`. -/
def bDescriptor : BuildFile :=
  { btype := "maven", dir := ["repo", "b"], modules := some [some ("c")] }

/-- `b/c/pom.xml`: a leaf module. -/
def cDescriptor : BuildFile :=
  { btype := "maven", dir := ["repo", "b", "c"], modules := some [] }

def mavenForest : List BuildFile :=
  [rootDescriptor, aDescriptor, bDescriptor, cDescriptor]

example : filterBuildRoots mavenForest = [rootDescriptor] := by decide

/-! ## Conflict detector (src/scanners/consistency_scanner.py) -/

/-- One SBOM artifact entry as consumed by `_find_conflicts`: a record with
`name`, `version` and `type` fields (the Syft JSON `artifacts` entries the
claims quantify over; `pkg.get(...)` reads these keys). -/
structure Package where
  name : String
  version : String
  ptype : String
deriving DecidableEq, Repr

/-- One conflict record produced by `_find_conflicts`. -/
structure Conflict where
  package : String
  ptype : String
  versions : List String
  severity : String
  description : String
  remediation : String
deriving DecidableEq, Repr, Inhabited

/-- `registry[key].add(ver)`: the Python per-key `set` of versions is modeled
as a duplicate-free list in insertion order (the set is only read through
`len` and `sorted`, both of which are order-insensitive). -/
def pushNew (vs : List String) (v : String) : List String :=
  if vs.contains v then vs else vs ++ [v]

/-- The `registry` dict of `_find_conflicts`: keys `(name, type)` in first
insertion order, each mapped to its version set. -/
def addVersion : List ((String × String) × List String) → (String × String) → String →
    List ((String × String) × List String)
  | [], key, v => [(key, [v])]
  | (k, vs) :: rest, key, v =>
      if k = key then (k, pushNew vs v) :: rest
      else (k, vs) :: addVersion rest key v

def buildRegistry (pkgs : List Package) : List ((String × String) × List String) :=
  pkgs.foldl (fun reg p => addVersion reg (p.name, p.ptype) p.version) []

/-- `_generate_remediation`: ecosystem-specific advice chosen by substring
matching on the ecosystem identifier. -/
def generateRemediation (name pkgType latestVersion : String) : String :=
  if strContains pkgType ("maven") || strContains pkgType ("java") then
    "Identify the root cause using `mvn dependency:tree -Dverbose -Dincludes=" ++ name ++
      "`. Then, force convergence by adding `" ++ name ++ ":" ++ latestVersion ++
      "` to the `<dependencyManagement>` section of your root pom.xml."
  else if strContains pkgType ("python") || strContains pkgType ("pip") then
    "Check your requirements using `pipdeptree -p " ++ name ++
      "`. Pin `" ++ name ++ "==" ++ latestVersion ++
      "` in your requirements.txt or use a lockfile manager like Poetry/Pipenv."
  else if strContains pkgType ("npm") || strContains pkgType ("node") then
    "Run `npm list " ++ name ++ "` to see the tree. " ++
      "Consider using `npm dedupe` or adding an \x27overrides\x27 section in package.json for `" ++
      name ++ "`."
  else
    "Investigate build configuration to ensure only version " ++ latestVersion ++
      " of " ++ name ++ " is used."

/-- The conflict dict appended by `_find_conflicts` for one key with more than
one version (`sorted_versions[-1]` is total here because the branch requires
at least two versions). -/
def conflictOf (name ptypeName : String) (versions : List String) : Conflict :=
  let sortedVersions := pySorted versions
  { package := name
    ptype := ptypeName
    versions := sortedVersions
    severity := "MEDIUM"
    description := "Multiple versions of \x27" ++ name ++ "\x27 detected: " ++
      String.intercalate (", ") sortedVersions ++
      ". This can lead to runtime errors or unpredictable behavior."
    remediation := generateRemediation name ptypeName (sortedVersions.getLastD ("")) }

/-- `_find_conflicts` (src/scanners/consistency_scanner.py, lines 75-109). -/
def findConflicts (pkgs : List Package) : List Conflict :=
  (buildRegistry pkgs).filterMap
    (fun kv => if 1 < kv.2.length then some (conflictOf kv.1.1 kv.1.2 kv.2) else none)

/-- The SBOM of the specification scenario. -/
def examplePkgs : List Package :=
  [ { name := "libX", version := "1.0", ptype := "maven" },
    { name := "libX", version := "2.0", ptype := "maven" },
    { name := "libY", version := "1.0", ptype := "maven" } ]

example :
    (findConflicts examplePkgs).map (fun c => (c.package, c.ptype, c.versions, c.severity)) =
      [("libX", "maven", ["1.0", "2.0"], "MEDIUM")] := by decide

/-! ## Python values

Scan results are Python dicts/lists/strings built from parsed JSON.  `JVal`
models such dynamically typed values; dicts are association lists in insertion
order (Python dicts preserve insertion order and have unique keys). -/

inductive JVal where
  | null
  | bool (b : Bool)
  | num (n : Int)
  | str (s : String)
  | arr (elems : List JVal)
  | obj (fields : List (String × JVal))
deriving Repr, Inhabited

/-- Python truthiness of a value (`if x:`). -/
def JVal.truthy : JVal → Bool
  | .null => false
  | .bool b => b
  | .num n => decide (n ≠ 0)
  | .str s => !s.isEmpty
  | .arr xs => !xs.isEmpty
  | .obj fs => !fs.isEmpty

/-- Python `x == "k"` for a JSON value against a string literal. -/
def JVal.eqStr : JVal → String → Bool
  | .str t, s => t = s
  | _, _ => false

/-- `d.get(k, default)`: `AttributeError` when the receiver is not a dict. -/
def pyGet (j : JVal) (k : String) (dflt : JVal) : Except String JVal :=
  match j with
  | .obj fs => .ok (((fs.find? (fun f => f.1 = k)).map Prod.snd).getD dflt)
  | _ => .error ("AttributeError: get")

/-- `d[k]`: `KeyError` on a missing key, `TypeError` on string-keyed indexing
of non-dicts. -/
def pyIndex (j : JVal) (k : String) : Except String JVal :=
  match j with
  | .obj fs =>
      match fs.find? (fun f => f.1 = k) with
      | some f => .ok f.2
      | none => .error ("KeyError")
  | _ => .error ("TypeError: not subscriptable")

/-- Python `k in container` for a string key: dict key membership, list
element equality, substring test; `TypeError` otherwise. -/
def pyContains (container : JVal) (k : String) : Except String Bool :=
  match container with
  | .obj fs => .ok (fs.any (fun f => f.1 = k))
  | .arr xs => .ok (xs.any (fun x => x.eqStr k))
  | .str s => .ok (strContains s k)
  | _ => .error ("TypeError: not a container")

/-- Python `len`. -/
def pyLen : JVal → Except String Nat
  | .str s => .ok s.toList.length
  | .arr xs => .ok xs.length
  | .obj fs => .ok fs.length
  | _ => .error ("TypeError: no len")

/-- Python iteration (`for x in v`): list elements, dict keys, string
characters; `TypeError` otherwise. -/
def pyIter : JVal → Except String (List JVal)
  | .arr xs => .ok xs
  | .obj fs => .ok (fs.map (fun f => .str f.1))
  | .str s => .ok (s.toList.map (fun c => .str (String.mk [c])))
  | _ => .error ("TypeError: not iterable")

/-- `.lower()` on a value that must be a string. -/
def pyLowerJ : JVal → Except String String
  | .str s => .ok (pyLower s)
  | _ => .error ("AttributeError: lower")

/-- The `status` field of a result dict, when present and a string. -/
def statusOf (j : JVal) : Option String :=
  match j with
  | .obj fs =>
      match fs.find? (fun f => f.1 = "status") with
      | some (_, .str s) => some s
      | _ => none
  | _ => none

/-- A field of a result dict. -/
def fieldOf (j : JVal) (k : String) : Option JVal :=
  match j with
  | .obj fs => (fs.find? (fun f => f.1 = k)).map Prod.snd
  | _ => none

/-! ## Scan units (src/scanners/*.py)

Each scanner wrapper runs one external process through `subprocess.run` inside
a `try`/`except` ladder.  `ProcOutcome` is the outcome of that call:
successful completion with captured streams and exit code, or one of the
exception classes the source catches.  `json.loads` is modeled by a `parse`
function parameter: `none` means `json.JSONDecodeError` (stdout does not parse
as JSON), `some j` the parsed value. -/

structure ProcResult where
  returncode : Int
  stdout : String
  stderr : String
deriving DecidableEq, Repr

inductive ProcOutcome where
  | completed (r : ProcResult)
  | timeoutExpired
  | fileNotFound
  | exn (msg : String)
deriving DecidableEq, Repr

/-- `DependencyScanner._run_trivy_fs` (src/scanners/dependency_scanner.py,
lines 45-76). -/
def runTrivyFs (parse : String → Option JVal) (out : ProcOutcome) : JVal :=
  match out with
  | .completed r =>
      if r.returncode = 0 then
        match parse r.stdout with
        | some j => j
        | none => .obj [("findings", .arr []), ("status", .str ("completed"))]
      else .obj [("error", .str r.stderr), ("status", .str ("failed"))]
  | .timeoutExpired =>
      .obj [("error", .str ("Trivy scan timed out")), ("status", .str ("timeout"))]
  | .fileNotFound =>
      .obj [("error", .str ("Trivy not installed")), ("status", .str ("not_installed"))]
  | .exn m => .obj [("error", .str m), ("status", .str ("error"))]

/-- `IaCScanner._run_trivy_config` (src/scanners/iac_scanner.py, lines
48-78). -/
def runTrivyConfig (parse : String → Option JVal) (out : ProcOutcome) : JVal :=
  match out with
  | .completed r =>
      if r.returncode = 0 then
        match parse r.stdout with
        | some j => j
        | none => .obj [("findings", .arr []), ("status", .str ("completed"))]
      else .obj [("error", .str r.stderr), ("status", .str ("failed"))]
  | .timeoutExpired =>
      .obj [("error", .str ("Trivy config scan timed out")), ("status", .str ("timeout"))]
  | .fileNotFound =>
      .obj [("error", .str ("Trivy not installed")), ("status", .str ("not_installed"))]
  | .exn m => .obj [("error", .str m), ("status", .str ("error"))]

/-- `IaCScanner._run_checkov` (src/scanners/iac_scanner.py, lines 80-112):
checkov signals findings through exit code 1. -/
def runCheckov (parse : String → Option JVal) (out : ProcOutcome) : JVal :=
  match out with
  | .completed r =>
      if r.returncode = 0 ∨ r.returncode = 1 then
        match parse r.stdout with
        | some j => j
        | none => .obj [("findings", .arr []), ("status", .str ("completed"))]
      else .obj [("error", .str r.stderr), ("status", .str ("failed"))]
  | .timeoutExpired =>
      .obj [("error", .str ("Checkov scan timed out")), ("status", .str ("timeout"))]
  | .fileNotFound =>
      .obj [("error", .str ("Checkov not installed")), ("status", .str ("not_installed"))]
  | .exn m => .obj [("error", .str m), ("status", .str ("error"))]

/-- `SASTScanner._run_semgrep` (src/scanners/sast_scanner.py, lines 49-80). -/
def runSemgrep (parse : String → Option JVal) (out : ProcOutcome) : JVal :=
  match out with
  | .completed r =>
      if r.returncode = 0 ∨ r.returncode = 1 then
        match parse r.stdout with
        | some j => j
        | none => .obj [("findings", .arr []), ("status", .str ("completed"))]
      else .obj [("error", .str r.stderr), ("status", .str ("failed"))]
  | .timeoutExpired =>
      .obj [("error", .str ("Semgrep scan timed out")), ("status", .str ("timeout"))]
  | .fileNotFound =>
      .obj [("error", .str ("Semgrep not installed")), ("status", .str ("not_installed"))]
  | .exn m => .obj [("error", .str m), ("status", .str ("error"))]

/-- `LintScanner._run_hadolint` (src/scanners/lint_scanner.py, lines 44-83):
exit 0 is clean, exit 1 means findings, any other exit is a crash; status 1
with empty stdout is downgraded to an error. -/
def runHadolint (dockerfile : String) (out : ProcOutcome) : JVal :=
  match out with
  | .completed r =>
      if r.returncode = 0 then
        .obj [("dockerfile", .str dockerfile), ("output", .str r.stdout),
              ("status", .str ("completed"))]
      else if r.returncode = 1 then
        if r.stdout.isEmpty then
          .obj [("dockerfile", .str dockerfile),
                ("error", .str ("Hadolint returned status 1 but empty output")),
                ("status", .str ("error"))]
        else
          .obj [("dockerfile", .str dockerfile), ("output", .str r.stdout),
                ("status", .str ("issues_found"))]
      else
        .obj [("dockerfile", .str dockerfile),
              ("error", .str ("Hadolint crashed with code " ++ toString r.returncode)),
              ("status", .str ("error"))]
  | .timeoutExpired =>
      .obj [("dockerfile", .str dockerfile), ("error", .str ("Hadolint timed out")),
            ("status", .str ("timeout"))]
  | .fileNotFound =>
      .obj [("dockerfile", .str dockerfile), ("error", .str ("Hadolint not installed")),
            ("status", .str ("not_installed"))]
  | .exn m =>
      .obj [("dockerfile", .str dockerfile), ("error", .str m), ("status", .str ("error"))]

/-- `SecretsScanner._run_gitleaks` (src/scanners/secrets_scanner.py, lines
42-78): after the process call the function reads the report file back;
`reportFile` is its content (`none` models `FileNotFoundError` on `open`);
`parse` models `json.load`. -/
def runGitleaks (parse : String → Option JVal) (out : ProcOutcome)
    (reportFile : Option String) : JVal :=
  match out with
  | .completed _ =>
      match reportFile with
      | none => .arr []
      | some content =>
          match parse content with
          | none => .arr []
          | some findings => if findings.truthy then findings else .arr []
  | .timeoutExpired =>
      .obj [("error", .str ("Gitleaks scan timed out")), ("status", .str ("timeout"))]
  | .fileNotFound =>
      .obj [("error", .str ("Gitleaks not installed")), ("status", .str ("not_installed"))]
  | .exn m => .obj [("error", .str m), ("status", .str ("error"))]

/-- JSON encoding of one conflict dict, in the key order of the source
literal. -/
def encodeConflict (c : Conflict) : JVal :=
  .obj [("package", .str c.package), ("type", .str c.ptype),
        ("versions", .arr (c.versions.map JVal.str)),
        ("severity", .str c.severity), ("description", .str c.description),
        ("remediation", .str c.remediation)]

/-- The artifact records of a parsed Syft SBOM
(`sbom_data.get('artifacts', [])` followed by the per-entry `pkg.get` reads of
`_find_conflicts`).  Restriction of the model: entries are dicts with string
`name`/`version`/`type` fields, the shape Syft emits and the only shape the
claims exercise; other shapes would make the Python flow through `None` keys
and are not modeled. -/
def extractPackages (sbom : JVal) : List Package :=
  match sbom with
  | .obj fs =>
      match (fs.find? (fun f => f.1 = "artifacts")).map Prod.snd with
      | some (.arr items) =>
          items.filterMap (fun item =>
            match item with
            | .obj gs =>
                match (gs.find? (fun g => g.1 = "name")).map Prod.snd,
                      (gs.find? (fun g => g.1 = "version")).map Prod.snd,
                      (gs.find? (fun g => g.1 = "type")).map Prod.snd with
                | some (.str n), some (.str v), some (.str t) =>
                    some { name := n, version := v, ptype := t }
                | _, _, _ => none
            | _ => none)
      | _ => []
  | _ => []

/-- `ConsistencyScanner.scan` (src/scanners/consistency_scanner.py, lines
22-73): the enablement flag, the `shutil.which('syft')` probe, the Syft
subprocess outcome, and `json.loads` on its stdout.  A `FileNotFoundError`
from `subprocess.run` itself (syft disappearing after the `which` probe) is
caught by the generic `except Exception` clause and is modeled by `.exn`. -/
def consistencyScan (enabled syftInstalled : Bool) (parse : String → Option JVal)
    (out : ProcOutcome) : JVal :=
  if !enabled then .obj []
  else if !syftInstalled then
    .obj [("error", .str ("Syft binary not found")), ("status", .str ("not_installed"))]
  else
    match out with
    | .completed r =>
        if r.returncode ≠ 0 then
          .obj [("error", .str r.stderr), ("status", .str ("failed"))]
        else
          match parse r.stdout with
          | none =>
              .obj [("error", .str ("Failed to parse Syft output")),
                    ("status", .str ("failed"))]
          | some sbom =>
              .obj [("findings", .arr ((findConflicts (extractPackages sbom)).map
                      encodeConflict)),
                    ("status", .str ("completed")), ("tool", .str ("syft"))]
    | .timeoutExpired =>
        .obj [("error", .str ("Syft analysis timed out")), ("status", .str ("timeout"))]
    | .fileNotFound =>
        .obj [("error", .str ("[Errno 2] No such file or directory: \x27syft\x27")),
              ("status", .str ("error"))]
    | .exn m => .obj [("error", .str m), ("status", .str ("error"))]

/-- `SASTScanner._run_spotbugs` (src/scanners/sast_scanner.py, lines 82-133):
one subprocess per jar, findings accumulated in order; a missing executable
returns the `not_installed` dict immediately from inside the loop. -/
def runSpotbugs (outcome : String → ProcOutcome) :
    List String → List JVal → JVal
  | [], acc => .obj [("findings", .arr acc), ("status", .str ("completed"))]
  | jar :: rest, acc =>
      match outcome jar with
      | .completed r =>
          if r.returncode = 0 then
            runSpotbugs outcome rest (acc ++
              [.obj [("jar", .str jar), ("status", .str ("completed")),
                     ("output", .str r.stdout)]])
          else
            runSpotbugs outcome rest (acc ++
              [.obj [("jar", .str jar), ("error", .str r.stderr),
                     ("status", .str ("failed"))]])
      | .timeoutExpired =>
          runSpotbugs outcome rest (acc ++
            [.obj [("jar", .str jar), ("error", .str ("SpotBugs scan timed out")),
                   ("status", .str ("timeout"))]])
      | .fileNotFound =>
          .obj [("error", .str ("SpotBugs not installed")),
                ("status", .str ("not_installed"))]
      | .exn m =>
          runSpotbugs outcome rest (acc ++
            [.obj [("jar", .str jar), ("error", .str m), ("status", .str ("error"))]])

/-! ## Scan orchestration (src/cerberus.py) -/

/-- The configuration read by the orchestrator and the scanner constructors:
per-category enablement (`scanners.<cat>.enabled`, default `True`) and tool
lists (`scanners.<cat>.tools`, with the per-scanner defaults of the
constructors already applied). -/
structure ScanConfig where
  secretsEnabled : Bool
  sastEnabled : Bool
  depsEnabled : Bool
  iacEnabled : Bool
  secretsTools : List String
  sastTools : List String
  depsTools : List String
  iacTools : List String

/-- The external world of one source-stage run: the outcome of each tool
subprocess, the gitleaks report file, and `json.loads`. -/
structure ScanEnv where
  parse : String → Option JVal
  gitleaks : ProcOutcome
  gitleaksReport : Option String
  semgrep : ProcOutcome
  spotbugs : String → ProcOutcome
  trivyFs : ProcOutcome
  trivyConfig : ProcOutcome
  checkov : ProcOutcome

/-- `SecretsScanner.scan` (src/scanners/secrets_scanner.py, lines 25-40). -/
def secretsScan (cfg : ScanConfig) (env : ScanEnv) : JVal :=
  .obj [("gitleaks",
         if cfg.secretsTools.contains ("gitleaks") then
           runGitleaks env.parse env.gitleaks env.gitleaksReport
         else .null)]

/-- `SASTScanner.scan` (src/scanners/sast_scanner.py, lines 25-47):
spotbugs runs only when jar files were detected. -/
def sastScan (cfg : ScanConfig) (env : ScanEnv) (jarFiles : List String) : JVal :=
  .obj [("semgrep",
         if cfg.sastTools.contains ("semgrep") then runSemgrep env.parse env.semgrep
         else .null),
        ("spotbugs",
         if cfg.sastTools.contains ("spotbugs") && !jarFiles.isEmpty then
           runSpotbugs env.spotbugs jarFiles []
         else .null)]

/-- `DependencyScanner.scan` (src/scanners/dependency_scanner.py, lines
27-43). -/
def dependencyScan (cfg : ScanConfig) (env : ScanEnv) : JVal :=
  .obj [("trivy",
         if cfg.depsTools.contains ("trivy") then runTrivyFs env.parse env.trivyFs
         else .null)]

/-- `IaCScanner.scan` (src/scanners/iac_scanner.py, lines 24-46). -/
def iacScan (cfg : ScanConfig) (env : ScanEnv) : JVal :=
  .obj [("trivy",
         if cfg.iacTools.contains ("trivy") then runTrivyConfig env.parse env.trivyConfig
         else .null),
        ("checkov",
         if cfg.iacTools.contains ("checkov") then runCheckov env.parse env.checkov
         else .null)]

/-- `Cerberus._run_source_scanners` (src/cerberus.py, lines 144-170): runs the
enabled source-stage scanners in order and records each result in
`self.results` under its category key (the results dict is empty before this
method runs). -/
def runSourceScanners (cfg : ScanConfig) (env : ScanEnv) (jarFiles : List String) :
    List (String × JVal) :=
  (if cfg.secretsEnabled then [("secrets", secretsScan cfg env)] else []) ++
  (if cfg.sastEnabled then [("sast", sastScan cfg env jarFiles)] else []) ++
  (if cfg.depsEnabled then [("dependencies", dependencyScan cfg env)] else []) ++
  (if cfg.iacEnabled then [("iac", iacScan cfg env)] else [])

/-! ## Artifact detection (src/utils/artifact_detector.py, detect) -/

/-- One entry of `artifacts['build_files']` as produced by
`_find_build_files` (path of the descriptor file and its directory). -/
structure BuildEntry where
  btype : String
  path : CPath
  dir : CPath
deriving DecidableEq, Repr

/-- The `self.artifacts` dictionary filled by `detect` (the `docker_images`
list stays empty there and is omitted). -/
structure Inventory where
  dockerfiles : List CPath
  helmCharts : List CPath
  buildFiles : List BuildEntry
  jarFiles : List CPath
  warFiles : List CPath
  kubernetesManifests : List CPath
deriving DecidableEq, Repr

/-- A repository tree as seen by `Path.rglob`: the canonical component list
of the repository root, and the relative component lists of all regular files
beneath it (each ending in the file name).  `rglob` yields
`repoParts ++ rel`; in particular `Path.parts` of a match includes the
components of the repository root itself. -/
structure RepoTree where
  repoParts : CPath
  files : List CPath

def fileNameOf (rel : CPath) : String := rel.getLastD ("")

def fullPath (t : RepoTree) (rel : CPath) : CPath := t.repoParts ++ rel

/-- The exclusion set of `_find_dockerfiles` and `_find_build_files`. -/
def sourceExclusions : List String :=
  ["node_modules", "vendor", ".git", "target", "build", "dist", "reports"]

/-- The exclusion set of `_find_java_artifacts` (`target`/`build` deliberately
kept, since compiled artifacts live there). -/
def javaExclusions : List String := ["node_modules", "vendor", ".git", "reports"]

/-- `any(ex in p.parts for ex in exclusions)`. -/
def excludedBy (exclusions : List String) (parts : CPath) : Bool :=
  exclusions.any (fun e => parts.contains e)

/-- `_find_dockerfiles` (lines 49-58). -/
def findDockerfiles (t : RepoTree) : List CPath :=
  (t.files.filter (fun rel =>
      strStarts (fileNameOf rel) ("Dockerfile") &&
      !excludedBy sourceExclusions (fullPath t rel))).map (fullPath t)

/-- `_find_helm_charts` (lines 60-66): every `Chart.yaml` contributes its
directory; no exclusion set is applied. -/
def findHelmCharts (t : RepoTree) : List CPath :=
  (t.files.filter (fun rel => fileNameOf rel = "Chart.yaml")).map
    (fun rel => (fullPath t rel).dropLast)

/-- `_find_build_files` (lines 68-88): Maven descriptors first, then Gradle
descriptors, both under the source exclusion set. -/
def findBuildFiles (t : RepoTree) : List BuildEntry :=
  ((t.files.filter (fun rel =>
      fileNameOf rel = "pom.xml" &&
      !excludedBy sourceExclusions (fullPath t rel))).map (fun rel =>
        { btype := "maven", path := fullPath t rel, dir := (fullPath t rel).dropLast })) ++
  ((t.files.filter (fun rel =>
      strStarts (fileNameOf rel) ("build.gradle") &&
      !excludedBy sourceExclusions (fullPath t rel))).map (fun rel =>
        { btype := "gradle", path := fullPath t rel, dir := (fullPath t rel).dropLast }))

/-- `_find_java_artifacts`, `jar_files` part (lines 90-97): `*.jar`, `*.war`,
`*.ear` matches in that pattern order, under the reduced exclusion set. -/
def findJarFiles (t : RepoTree) : List CPath :=
  (["jar", "war", "ear"].map (fun ext =>
     (t.files.filter (fun rel =>
        strEnds (fileNameOf rel) ("." ++ ext) &&
        !excludedBy javaExclusions (fullPath t rel))).map (fullPath t))).join

/-- `_find_java_artifacts`, `war_files` part (lines 99-101): the source
condition is `war.is_file() and 'target' in war.parts or 'build' in
war.parts`, which by Python precedence is `(is_file and 'target' in parts) or
('build' in parts)`; with every entry a regular file this is a plain
disjunction, and no exclusion set applies. -/
def findWarFiles (t : RepoTree) : List CPath :=
  (t.files.filter (fun rel =>
      strEnds (fileNameOf rel) (".war") &&
      ((fullPath t rel).contains ("target") || (fullPath t rel).contains ("build")))).map
    (fullPath t)

def k8sPatterns : List String :=
  ["deployment.yaml", "deployment.yml", "service.yaml", "service.yml",
   "ingress.yaml", "ingress.yml"]

/-- `_find_kubernetes_manifests` (lines 103-113): fixed file names, pattern by
pattern, deduplicated on append; no exclusion set is applied. -/
def findK8sManifests (t : RepoTree) : List CPath :=
  k8sPatterns.foldl (fun acc pat =>
    (t.files.filter (fun rel => fileNameOf rel = pat)).foldl
      (fun acc2 rel =>
        if acc2.contains (fullPath t rel) then acc2 else acc2 ++ [fullPath t rel])
      acc) []

/-- `ArtifactDetector.detect` (lines 34-47) on an initially empty artifact
dictionary. -/
def detect (t : RepoTree) : Inventory :=
  { dockerfiles := findDockerfiles t
    helmCharts := findHelmCharts t
    buildFiles := findBuildFiles t
    jarFiles := findJarFiles t
    warFiles := findWarFiles t
    kubernetesManifests := findK8sManifests t }

/-! ## Result aggregator (src/utils/report_generator.py, _generate_summary)

The aggregator probes a nested dict of per-scanner payloads.  The embedding
threads the summary through `Except String`: `.error` marks the places where
the Python code would raise (absorbing nothing), `.ok` the returned summary.
The summary itself is an association list over the eight fixed category names,
mirroring the dict built by the initialization loop. -/

/-- One `summary[scanner]` dict: the five severity counters. -/
structure SevCounts where
  critical : Nat
  high : Nat
  medium : Nat
  low : Nat
  info : Nat
deriving DecidableEq, Repr

def SevCounts.zero : SevCounts := ⟨0, 0, 0, 0, 0⟩

/-- The key set of a `summary[scanner]` dict, probed by
`severity in summary[cat]`. -/
def sevKeys : List String := ["critical", "high", "medium", "low", "info"]

/-- `summary[cat][sev] += n` for `sev` one of the five keys (no-op otherwise;
the source only calls it under a key-membership guard or with a literal
key). -/
def SevCounts.add (c : SevCounts) (sev : String) (n : Nat) : SevCounts :=
  if sev = "critical" then { c with critical := c.critical + n }
  else if sev = "high" then { c with high := c.high + n }
  else if sev = "medium" then { c with medium := c.medium + n }
  else if sev = "low" then { c with low := c.low + n }
  else if sev = "info" then { c with info := c.info + n }
  else c

/-- Bucketing of one severity string: the guarded increment
`if severity in summary[cat]: summary[cat][severity] += 1 else:
summary[cat]['info'] += 1`. -/
def SevCounts.bucket (c : SevCounts) (sev : String) : SevCounts :=
  if sevKeys.contains sev then c.add sev 1 else c.add ("info") 1

abbrev Summary := List (String × SevCounts)

/-- The eight fixed scan categories, in initialization order. -/
def catNames : List String :=
  ["secrets", "dependencies", "iac", "sast", "containers", "helm", "linting",
   "consistency"]

/-- The initialization loop of `_generate_summary` (lines 638-642). -/
def summaryInit : Summary := catNames.map (fun c => (c, SevCounts.zero))

/-- `summary[cat] = f(summary[cat])`: updates the entry of one category. -/
def updateCat (s : Summary) (cat : String) (f : SevCounts → SevCounts) : Summary :=
  s.map (fun e => if e.1 = cat then (e.1, f e.2) else e)

/-- Top-level `results.get(k, default)`; the orchestrator passes a dict, so
this access is total. -/
def topGetD (results : List (String × JVal)) (k : String) (dflt : JVal) : JVal :=
  ((results.find? (fun f => f.1 = k)).map Prod.snd).getD dflt

/-- Step 1 of `_generate_summary` (lines 644-648): gitleaks findings are all
counted as high. -/
def secretsStep (results : List (String × JVal)) (s : Summary) :
    Except String Summary := do
  let gitleaks ← pyGet (topGetD results ("secrets") (.obj [])) ("gitleaks") .null
  if gitleaks.truthy then
    let n ← pyLen gitleaks
    pure (updateCat s ("secrets") (fun c => { c with high := n }))
  else pure s

/-- The shared severity-bucketing loop body of steps 2-4: per finding, read
`sevField` with default `dflt`, lower-case it, and bucket. -/
def findingLoop (cat sevField dflt : String) (items : List JVal) (s : Summary) :
    Except String Summary :=
  items.foldlM (fun s item => do
    let sevJ ← pyGet item sevField (.str dflt)
    let sev ← pyLowerJ sevJ
    pure (updateCat s cat (fun c => c.bucket sev))) s

/-- The nested per-result loop of steps 2 and 3 (the two loops are verbatim
duplicates in the source, parameterized here by category and list key):
results carrying an `innerKey` list contribute one bucketed count per
entry. -/
def trivyResultsLoop (cat innerKey sevField dflt : String) (rs : List JVal)
    (s : Summary) : Except String Summary :=
  rs.foldlM (fun s r => do
    let has ← pyContains r innerKey
    if has then do
      let inner ← pyIndex r innerKey
      let items ← pyIter inner
      findingLoop cat sevField dflt items s
    else pure s) s

/-- Step 2 of `_generate_summary` (lines 650-659): Trivy dependency
vulnerabilities, bucketed by `Severity` lower-cased (default `UNKNOWN`). -/
def depsStep (results : List (String × JVal)) (s : Summary) :
    Except String Summary := do
  let trivy ← pyGet (topGetD results ("dependencies") (.obj [])) ("trivy") (.obj [])
  let resultsJ ← pyGet trivy ("Results") .null
  if resultsJ.truthy then do
    let rs ← pyIter resultsJ
    trivyResultsLoop ("dependencies") ("Vulnerabilities") ("Severity") ("UNKNOWN") rs s
  else pure s

/-- Step 3a of `_generate_summary` (lines 661-671): Trivy IaC
misconfigurations, bucketed like step 2. -/
def iacTrivyStep (results : List (String × JVal)) (s : Summary) :
    Except String Summary := do
  let trivy ← pyGet (topGetD results ("iac") (.obj [])) ("trivy") (.obj [])
  let resultsJ ← pyGet trivy ("Results") .null
  if resultsJ.truthy then do
    let rs ← pyIter resultsJ
    trivyResultsLoop ("iac") ("Misconfigurations") ("Severity") ("UNKNOWN") rs s
  else pure s

/-- Step 3b of `_generate_summary` (lines 672-681): checkov failures counted
as medium. -/
def checkovStep (results : List (String × JVal)) (s : Summary) :
    Except String Summary := do
  let ck ← pyGet (topGetD results ("iac") (.obj [])) ("checkov") .null
  if ck.truthy then
    match ck with
    | .arr xs => pure (updateCat s ("iac") (fun c => c.add ("medium") xs.length))
    | .obj fs =>
        if fs.any (fun f => f.1 = "results") then do
          let inner ← pyGet (.obj fs) ("results") (.obj [])
          let failed ← pyGet inner ("failed_checks") (.arr [])
          let n ← pyLen failed
          pure (updateCat s ("iac") (fun c => c.add ("medium") n))
        else pure s
    | _ => pure s
  else pure s

/-- Step 4 of `_generate_summary` (lines 683-690): consistency findings,
bucketed by `severity` lower-cased (default `medium`). -/
def consistencyStep (results : List (String × JVal)) (s : Summary) :
    Except String Summary := do
  let findings ← pyGet (topGetD results ("consistency") (.obj [])) ("findings") .null
  if findings.truthy then do
    let items ← pyIter findings
    findingLoop ("consistency") ("severity") ("medium") items s
  else pure s

/-- Step 5 of `_generate_summary` (lines 692-712): semgrep-shaped results map
`error → high`, `warning → medium`, anything else → info; list-shaped results
count as medium; a spotbugs dict with a findings list counts as medium. -/
def sastStep (results : List (String × JVal)) (s : Summary) :
    Except String Summary :=
  if (topGetD results ("sast") .null).truthy then
    match topGetD results ("sast") .null with
    | .obj fs =>
        if fs.any (fun f => f.1 = "results") then do
          let inner ← pyIndex (.obj fs) ("results")
          let items ← pyIter inner
          items.foldlM (fun s f => do
            let extra ← pyGet f ("extra") (.obj [])
            let sevJ ← pyGet extra ("severity") (.str ("medium"))
            let sev ← pyLowerJ sevJ
            if sev = "error" then pure (updateCat s ("sast") (fun c => c.add ("high") 1))
            else if sev = "warning" then
              pure (updateCat s ("sast") (fun c => c.add ("medium") 1))
            else pure (updateCat s ("sast") (fun c => c.add ("info") 1))) s
        else if fs.any (fun f => f.1 = "spotbugs") then do
          let sb ← pyIndex (.obj fs) ("spotbugs")
          match sb with
          | .obj gs =>
              if gs.any (fun g => g.1 = "findings") then do
                let fd ← pyIndex (.obj gs) ("findings")
                let n ← pyLen fd
                pure (updateCat s ("sast") (fun c => c.add ("medium") n))
              else pure s
          | _ => pure s
        else pure s
    | .arr xs => pure (updateCat s ("sast") (fun c => c.add ("medium") xs.length))
    | _ => pure s
  else pure s

/-- Step 6 of `_generate_summary` (lines 714-729): one low per Dockerfile
with hadolint issues; list-shaped lint results count as info. -/
def lintingStep (results : List (String × JVal)) (s : Summary) :
    Except String Summary :=
  if (topGetD results ("linting") .null).truthy then
    match topGetD results ("linting") .null with
    | .obj fs =>
        if fs.any (fun f => f.1 = "hadolint") then do
          let hl ← pyIndex (.obj fs) ("hadolint")
          let items ← pyIter hl
          items.foldlM (fun s fr => do
            let st ← pyGet fr ("status") .null
            if st.eqStr ("issues_found") then
              pure (updateCat s ("linting") (fun c => c.add ("low") 1))
            else pure s) s
        else pure s
    | .arr xs => pure (updateCat s ("linting") (fun c => c.add ("info") xs.length))
    | _ => pure s
  else pure s

/-- `ReportGenerator._generate_summary` (src/utils/report_generator.py, lines
626-731). -/
def generateSummary (results : List (String × JVal)) : Except String Summary := do
  let s ← secretsStep results summaryInit
  let s ← depsStep results s
  let s ← iacTrivyStep results s
  let s ← checkovStep results s
  let s ← consistencyStep results s
  let s ← sastStep results s
  let s ← lintingStep results s
  pure s

example : generateSummary [] = .ok summaryInit := rfl

/-- The `COMPLETED`-with-empty-payload result dict shared by the parse-failure
branches of the trivy/semgrep/checkov wrappers. -/
def completedEmptyPayload : JVal :=
  .obj [("findings", .arr []), ("status", .str ("completed"))]

/-- The unparsable-module counterexample forest: the parent descriptor
declares `a` as a module, and `a`'s own descriptor is unparsable. -/
def parentPom : BuildFile :=
  { btype := "maven", dir := ["repo"], modules := some [some ("a")] }

def unparsableChild : BuildFile :=
  { btype := "maven", dir := ["repo", "a"], modules := none }

/-- A standalone unparsable descriptor. -/
def loneUnparsable : BuildFile :=
  { btype := "maven", dir := ["solo"], modules := none }

/-- A tree whose source files sit under excluded directories: manifests and a
chart under `node_modules`, a war under `reports/target`, a jar under
`dist`. -/
def vendoredTree : RepoTree :=
  { repoParts := ["repo"],
    files := [["node_modules", "deployment.yaml"],
              ["node_modules", "sub", "Chart.yaml"],
              ["reports", "target", "app.war"],
              ["dist", "lib.jar"]] }

/-- A tree exercising the exclusion sets and the compiled-artifact rule. -/
def exclusionTree : RepoTree :=
  { repoParts := ["repo"],
    files := [["vendor", "Dockerfile"], ["target", "app.jar"],
              ["reports", "target", "app.war"]] }

/-- A configuration with all four source-stage scanners enabled and the
default tool lists of the scanner constructors. -/
def allOnConfig : ScanConfig :=
  { secretsEnabled := true, sastEnabled := true, depsEnabled := true,
    iacEnabled := true,
    secretsTools := ["gitleaks"], sastTools := ["semgrep", "spotbugs"],
    depsTools := ["owasp-dependency-check", "trivy"], iacTools := ["trivy", "checkov"] }

/-- An environment in which only the semgrep binary is missing. -/
def semgrepMissingEnv : ScanEnv :=
  { parse := fun _ => none, gitleaks := .completed ⟨0, "", ""⟩,
    gitleaksReport := none, semgrep := .fileNotFound,
    spotbugs := fun _ => .completed ⟨0, "", ""⟩,
    trivyFs := .completed ⟨0, "", ""⟩, trivyConfig := .completed ⟨0, "", ""⟩,
    checkov := .completed ⟨0, "", ""⟩ }

/-- A finding dict carrying one severity field (the shape of one Trivy
vulnerability/misconfiguration entry). -/
def sevEnc (sevField sev : String) : JVal := .obj [(sevField, .str sev)]

/-- One Trivy result entry with a `Vulnerabilities` list. -/
def vulnGroupEnc (g : List String) : JVal :=
  .obj [("Vulnerabilities", .arr (g.map (sevEnc ("Severity"))))]

/-- One Trivy result entry with a `Misconfigurations` list. -/
def misconfGroupEnc (g : List String) : JVal :=
  .obj [("Misconfigurations", .arr (g.map (sevEnc ("Severity"))))]

/-- One semgrep finding with an `extra.severity` field. -/
def semgrepEnc (sev : String) : JVal :=
  .obj [("extra", .obj [("severity", .str sev)])]

/-- A results map holding only a gitleaks findings list. -/
def secretsScenario (findings : List JVal) : List (String × JVal) :=
  [("secrets", .obj [("gitleaks", .arr findings)])]

/-- A results map holding only a Trivy dependency report. -/
def depsScenario (groups : List (List String)) : List (String × JVal) :=
  [("dependencies", .obj [("trivy", .obj [("Results", .arr (groups.map vulnGroupEnc))])])]

/-- A results map holding only a Trivy IaC report. -/
def iacScenario (groups : List (List String)) : List (String × JVal) :=
  [("iac", .obj [("trivy", .obj [("Results", .arr (groups.map misconfGroupEnc))])])]

/-- A results map holding only a semgrep report. -/
def sastScenario (sevs : List String) : List (String × JVal) :=
  [("sast", .obj [("results", .arr (sevs.map semgrepEnc))])]

/-- The summary transformation of one bucketing loop over a severity list. -/
def bucketFold (cat : String) (sevs : List String) (s : Summary) : Summary :=
  sevs.foldl (fun s sev => updateCat s cat (fun c => c.bucket (pyLower sev))) s

/-- The counter transformation of one semgrep finding. -/
def sastBucket (c : SevCounts) (sev : String) : SevCounts :=
  if pyLower sev = "error" then c.add ("high") 1
  else if pyLower sev = "warning" then c.add ("medium") 1
  else c.add ("info") 1

/-- The summary transformation of the semgrep loop. -/
def sastFold (sevs : List String) (s : Summary) : Summary :=
  sevs.foldl (fun s sev =>
    if pyLower sev = "error" then updateCat s ("sast") (fun c => c.add ("high") 1)
    else if pyLower sev = "warning" then
      updateCat s ("sast") (fun c => c.add ("medium") 1)
    else updateCat s ("sast") (fun c => c.add ("info") 1)) s

/-- The number of findings whose lower-cased severity equals `k`. -/
def countLower (sevs : List String) (k : String) : Nat :=
  (sevs.filter (fun sev => pyLower sev = k)).length

/-- The number of findings the bucketing loops send to the info bucket: the
recognized `info` value together with every unrecognized value. -/
def countInfoLower (sevs : List String) : Nat :=
  (sevs.filter (fun sev => pyLower sev ≠ "critical" ∧ pyLower sev ≠ "high" ∧
    pyLower sev ≠ "medium" ∧ pyLower sev ≠ "low")).length

/-- The number of semgrep findings mapped to the info bucket: everything that
is neither an error nor a warning. -/
def countSastInfo (sevs : List String) : Nat :=
  (sevs.filter (fun sev => pyLower sev ≠ "error" ∧ pyLower sev ≠ "warning")).length

/-- First-match lookup in the registry association list (specification-side
helper for reasoning about `buildRegistry`). -/
def regFind : List ((String × String) × List String) → (String × String) →
    Option (List String)
  | [], _ => none
  | (k, vs) :: rest, key => if k = key then some vs else regFind rest key

/-- One package applied to the version set of a fixed key
(specification-side helper: the effect of one loop iteration of
`_find_conflicts` on a single registry entry). -/
def optStep (key : String × String) (acc : Option (List String)) (p : Package) :
    Option (List String) :=
  if (p.name, p.ptype) = key then some (pushNew (acc.getD []) p.version) else acc

/-- The version set accumulated for one `(name, type)` key over a package
list, in first-occurrence order; `none` when no package carries the key. -/
def optVerList (key : String × String) (pkgs : List Package) : Option (List String) :=
  pkgs.foldl (optStep key) none

/-! ## Helper lemmas -/

theorem charListLe_total : ∀ as bs : List Char,
    charListLe as bs = true ∨ charListLe bs as = true := by
  intro as
  induction as with
  | nil => intro bs; left; rfl
  | cons a as ih =>
      intro bs
      cases bs with
      | nil => right; rfl
      | cons b bs =>
          by_cases hab : a.toNat = b.toNat
          · rcases ih bs with h | h
            · left; simp only [charListLe, if_pos hab]; exact h
            · right; simp only [charListLe, if_pos hab.symm]; exact h
          · have hba : ¬ b.toNat = a.toNat := fun e => hab e.symm
            rcases Nat.lt_or_ge a.toNat b.toNat with h | h
            · left; simp only [charListLe, if_neg hab]; exact decide_eq_true h
            · have hlt : b.toNat < a.toNat := lt_of_le_of_ne h hba
              right
              simp only [charListLe, if_neg hba]
              exact decide_eq_true hlt

theorem charListLe_trans : ∀ as bs cs : List Char,
    charListLe as bs = true → charListLe bs cs = true → charListLe as cs = true := by
  intro as
  induction as with
  | nil => intro bs cs _ _; rfl
  | cons a as ih =>
      intro bs cs h1 h2
      cases bs with
      | nil => simp [charListLe] at h1
      | cons b bs =>
          cases cs with
          | nil => simp [charListLe] at h2
          | cons c cs =>
              simp only [charListLe] at h1 h2 ⊢
              by_cases hab : a.toNat = b.toNat
              · by_cases hbc : b.toNat = c.toNat
                · have hac : a.toNat = c.toNat := hab.trans hbc
                  simp only [hab, if_pos rfl] at h1
                  simp only [hbc, if_pos rfl] at h2
                  simp [hac, ih bs cs h1 h2]
                · simp only [if_pos hab] at h1
                  simp only [if_neg hbc] at h2
                  have hbc2 : b.toNat < c.toNat := by exact of_decide_eq_true h2
                  have hac : a.toNat < c.toNat := hab ▸ hbc2
                  simp [Nat.ne_of_lt hac, hac]
              · simp only [if_neg hab] at h1
                have hab2 : a.toNat < b.toNat := of_decide_eq_true h1
                by_cases hbc : b.toNat = c.toNat
                · have hac : a.toNat < c.toNat := hbc ▸ hab2
                  simp [Nat.ne_of_lt hac, hac]
                · simp only [if_neg hbc] at h2
                  have hbc2 : b.toNat < c.toNat := of_decide_eq_true h2
                  have hac : a.toNat < c.toNat := lt_trans hab2 hbc2
                  simp [Nat.ne_of_lt hac, hac]

instance : IsTotal String strLe := ⟨fun a b => charListLe_total a.toList b.toList⟩

instance : IsTrans String strLe :=
  ⟨fun a b c h1 h2 => charListLe_trans a.toList b.toList c.toList h1 h2⟩

/-- Membership characterization of the build-root filter. -/
theorem mem_filterBuildRoots_iff (bs : List BuildFile) (b : BuildFile) :
    b ∈ filterBuildRoots bs ↔ b ∈ bs ∧ b.dir ∉ childDirs bs := by
  unfold filterBuildRoots
  by_cases h : bs.isEmpty
  · have hnil : bs = [] := List.isEmpty_iff.mp h
    subst hnil
    simp
  · rw [if_neg h, List.mem_filter]
    constructor
    · rintro ⟨hm, hc⟩
      refine ⟨hm, fun hdir => ?_⟩
      have h1 : (childDirs bs).contains b.dir = false := by simpa using hc
      have h2 : (childDirs bs).contains b.dir = true := List.elem_iff.mpr hdir
      rw [h1] at h2
      cases h2
    · rintro ⟨hm, hdir⟩
      have h1 : (childDirs bs).contains b.dir = false := by
        rcases hcb : (childDirs bs).contains b.dir with _ | _
        · rfl
        · exact absurd (List.elem_iff.mp hcb) hdir
      exact ⟨hm, by rw [h1]; rfl⟩

/-! ## Claims -/

/-- C1: for every list of build descriptors, `_filter_build_roots` returns
exactly the descriptors whose canonicalized directory never appears as a
canonicalized declared-module child of any Maven descriptor in the list; on
the specification forest (root declares `[a, b]`, `a` declares nothing, `b`
declares `c`) the root set is `{root}` only. -/
theorem c1_filter_build_roots :
    (∀ (bs : List BuildFile) (b : BuildFile),
        b ∈ filterBuildRoots bs ↔ b ∈ bs ∧ b.dir ∉ childDirs bs) ∧
    filterBuildRoots mavenForest = [rootDescriptor] :=
  ⟨mem_filterBuildRoots_iff, by decide⟩

/-- C8 (counterexample): a Maven descriptor with an unparsable `pom.xml` that
another descriptor declares as a module is *not* retained in the returned root
set, contradicting the claim that unparsability never removes a descriptor
from the result. -/
theorem c8_counterexample :
    unparsableChild.modules = none ∧
    unparsableChild ∉ filterBuildRoots [parentPom, unparsableChild] := by
  constructor
  · rfl
  · decide

/-- C8 (amended): an unparsable Maven descriptor contributes no
parent-to-child edges, and — provided its directory is not a declared-module
child of another descriptor in the list — it is retained in the returned root
set; its own unparsability alone never removes it (and the `except` clause
means no exception escapes). -/
theorem c8_unparsable_standalone (bs : List BuildFile) (b : BuildFile)
    (hty : b.btype = "maven") (hun : b.modules = none) :
    moduleEdges b = [] ∧
    (b ∈ bs → b.dir ∉ childDirs bs → b ∈ filterBuildRoots bs) := by
  constructor
  · simp [moduleEdges, hty, hun]
  · intro hmem hnc
    exact (mem_filterBuildRoots_iff bs b).mpr ⟨hmem, hnc⟩

theorem c8_witness :
    moduleEdges loneUnparsable = [] ∧
    loneUnparsable ∈ filterBuildRoots [loneUnparsable] := by
  refine ⟨(c8_unparsable_standalone [loneUnparsable] loneUnparsable rfl rfl).1, ?_⟩
  exact (c8_unparsable_standalone [loneUnparsable] loneUnparsable rfl rfl).2
    (by decide) (by decide)

/-- C9: a hadolint run that exits with code 1 but empty stdout yields an
`error`-status result with an explanatory message, not `issues_found`;
`issues_found` arises exactly from exit code 1 with non-empty stdout. -/
theorem c9_hadolint_exit1 :
    (∀ (d : String) (r : ProcResult), r.returncode = 1 → r.stdout = "" →
        statusOf (runHadolint d (.completed r)) = some ("error") ∧
        fieldOf (runHadolint d (.completed r)) ("error") =
          some (.str ("Hadolint returned status 1 but empty output"))) ∧
    (∀ (d : String) (out : ProcOutcome),
        statusOf (runHadolint d out) = some ("issues_found") ↔
        ∃ r : ProcResult, out = .completed r ∧ r.returncode = 1 ∧ r.stdout ≠ "") := by
  constructor
  · intro d r h1 h2
    have hne : r.returncode ≠ 0 := by rw [h1]; decide
    simp [runHadolint, if_neg hne, h1, h2, statusOf, fieldOf,
      show ("" : String).isEmpty = true from rfl]
  · intro d out
    constructor
    · intro h
      match out with
      | .completed r =>
          refine ⟨r, rfl, ?_⟩
          by_cases h0 : r.returncode = 0
          · simp [runHadolint, h0, statusOf] at h
          · by_cases hone : r.returncode = 1
            · by_cases hemp : r.stdout.isEmpty
              · simp [runHadolint, h0, hone, hemp, statusOf] at h
              · refine ⟨hone, fun hs => ?_⟩
                rw [hs] at hemp
                exact hemp rfl
            · simp [runHadolint, h0, hone, statusOf] at h
      | .timeoutExpired => simp [runHadolint, statusOf] at h
      | .fileNotFound => simp [runHadolint, statusOf] at h
      | .exn m => simp [runHadolint, statusOf] at h
    · rintro ⟨r, rfl, h1, h2⟩
      have hne : r.returncode ≠ 0 := by rw [h1]; decide
      have hemp : r.stdout.isEmpty = false := by
        rcases hb : r.stdout.isEmpty with _ | _
        · rfl
        · exact absurd ((String.isEmpty_iff r.stdout).mp hb) h2
      simp [runHadolint, if_neg hne, h1, hemp, statusOf]

theorem c9_witness :
    statusOf (runHadolint ("Dockerfile") (.completed ⟨1, "", ""⟩)) = some ("error") ∧
    statusOf (runHadolint ("Dockerfile") (.completed ⟨1, "[]", ""⟩)) =
      some ("issues_found") := by
  constructor
  · exact (c9_hadolint_exit1.1 ("Dockerfile") ⟨1, "", ""⟩ rfl rfl).1
  · exact (c9_hadolint_exit1.2 ("Dockerfile") (.completed ⟨1, "[]", ""⟩)).mpr
      ⟨⟨1, "[]", ""⟩, rfl, rfl, by decide⟩

/-- C10: when the gitleaks process runs to completion but the report file is
absent or does not parse as JSON, the wrapper returns the empty findings list
(no error-status dict, no exception). -/
theorem c10_gitleaks_report_fallback :
    ∀ (parse : String → Option JVal) (r : ProcResult) (report : Option String),
      (report = none → runGitleaks parse (.completed r) report = .arr []) ∧
      (∀ content, report = some content → parse content = none →
        runGitleaks parse (.completed r) report = .arr []) := by
  intro parse r report
  constructor
  · rintro rfl
    rfl
  · rintro content rfl hp
    simp [runGitleaks, hp]

theorem c10_witness :
    runGitleaks (fun _ => none) (.completed ⟨1, "", ""⟩) none = .arr [] ∧
    runGitleaks (fun _ => none) (.completed ⟨1, "", ""⟩) (some ("garbage")) = .arr [] := by
  constructor
  · exact (c10_gitleaks_report_fallback (fun _ => none) ⟨1, "", ""⟩ none).1 rfl
  · exact (c10_gitleaks_report_fallback (fun _ => none) ⟨1, "", ""⟩
      (some ("garbage"))).2 ("garbage") rfl rfl

/-- C4 (counterexample): the consistency scanner does *not* downgrade a parse
failure to a COMPLETED-with-empty-payload result: with syft installed,
enabled, exit code 0 and unparsable stdout it returns a FAILED-status dict. -/
theorem c4_counterexample :
    consistencyScan true true (fun _ => none) (.completed ⟨0, "not json", ""⟩) =
      .obj [("error", .str ("Failed to parse Syft output")),
            ("status", .str ("failed"))] ∧
    statusOf (consistencyScan true true (fun _ => none)
        (.completed ⟨0, "not json", ""⟩)) ≠ some ("completed") := by
  constructor
  · rfl
  · intro h
    have h2 : (some ("failed") : Option String) = some ("completed") := h
    simp at h2

/-- C4 (amended): for the dependency scanner, the IaC scanner (both trivy
config and checkov) and the SAST scanner, an accepted exit code with
unparsable stdout yields the COMPLETED-with-empty-payload dict; the
consistency scanner instead reports a FAILED status (see the
counterexample). -/
theorem c4_parse_failure_downgrade (parse : String → Option JVal) (r : ProcResult)
    (hp : parse r.stdout = none) :
    (r.returncode = 0 → runTrivyFs parse (.completed r) = completedEmptyPayload) ∧
    (r.returncode = 0 → runTrivyConfig parse (.completed r) = completedEmptyPayload) ∧
    (r.returncode = 0 ∨ r.returncode = 1 →
      runSemgrep parse (.completed r) = completedEmptyPayload) ∧
    (r.returncode = 0 ∨ r.returncode = 1 →
      runCheckov parse (.completed r) = completedEmptyPayload) := by
  refine ⟨fun h0 => ?_, fun h0 => ?_, fun h01 => ?_, fun h01 => ?_⟩
  · simp [runTrivyFs, h0, hp, completedEmptyPayload]
  · simp [runTrivyConfig, h0, hp, completedEmptyPayload]
  · simp [runSemgrep, h01, hp, completedEmptyPayload]
  · simp [runCheckov, h01, hp, completedEmptyPayload]

theorem c4_witness :
    runTrivyFs (fun _ => none) (.completed ⟨0, "bad", ""⟩) = completedEmptyPayload ∧
    runCheckov (fun _ => none) (.completed ⟨1, "bad", ""⟩) = completedEmptyPayload := by
  constructor
  · exact (c4_parse_failure_downgrade (fun _ => none) ⟨0, "bad", ""⟩ rfl).1 rfl
  · exact (c4_parse_failure_downgrade (fun _ => none) ⟨1, "bad", ""⟩ rfl).2.2.2
      (Or.inr rfl)

/-- C5: a scan unit whose tool executable is absent returns a
`not_installed`-status result instead of raising — shown for every wrapper —
and the orchestrator still runs and records every other enabled scanner of the
source stage: the results map carries exactly the enabled category keys, and
with the semgrep binary missing the `sast` entry holds a `not_installed`
semgrep result.  Every wrapper is a total function of its process outcome, so
no failure category escapes `_run_source_scanners` as an exception. -/
theorem c5_missing_tool_isolation :
    (∀ parse : String → Option JVal,
        statusOf (runSemgrep parse .fileNotFound) = some ("not_installed") ∧
        statusOf (runTrivyFs parse .fileNotFound) = some ("not_installed") ∧
        statusOf (runTrivyConfig parse .fileNotFound) = some ("not_installed") ∧
        statusOf (runCheckov parse .fileNotFound) = some ("not_installed") ∧
        statusOf (runGitleaks parse .fileNotFound none) = some ("not_installed")) ∧
    (∀ d : String, statusOf (runHadolint d .fileNotFound) = some ("not_installed")) ∧
    (∀ (out : String → ProcOutcome) (jar : String) (rest : List String)
        (acc : List JVal), out jar = .fileNotFound →
        statusOf (runSpotbugs out (jar :: rest) acc) = some ("not_installed")) ∧
    (∀ (parse : String → Option JVal) (out : ProcOutcome),
        statusOf (consistencyScan true false parse out) = some ("not_installed")) ∧
    (∀ (cfg : ScanConfig) (env : ScanEnv) (jars : List String),
        (runSourceScanners cfg env jars).map Prod.fst =
          (if cfg.secretsEnabled then [("secrets" : String)] else []) ++
          (if cfg.sastEnabled then ["sast"] else []) ++
          (if cfg.depsEnabled then ["dependencies"] else []) ++
          (if cfg.iacEnabled then ["iac"] else [])) ∧
    (∀ (cfg : ScanConfig) (env : ScanEnv) (jars : List String),
        cfg.sastEnabled = true → cfg.sastTools.contains ("semgrep") = true →
        env.semgrep = .fileNotFound →
        (((runSourceScanners cfg env jars).lookup ("sast")).bind
            (fun j => fieldOf j ("semgrep"))).bind statusOf =
          some ("not_installed")) := by
  refine ⟨fun parse => ⟨rfl, rfl, rfl, rfl, rfl⟩, fun d => rfl, ?_, ?_, ?_, ?_⟩
  · intro out jar rest acc hfnf
    simp [runSpotbugs, hfnf, statusOf]
  · intro parse out
    rfl
  · intro cfg env jars
    rcases cfg with ⟨se, sa, de, ia, st, sat, dt, it⟩
    cases se <;> cases sa <;> cases de <;> cases ia <;> simp [runSourceScanners]
  · intro cfg env jars hsa htool hsem
    rcases cfg with ⟨se, sa, de, ia, st, sat, dt, it⟩
    simp only at hsa htool
    subst hsa
    have hmemtool : "semgrep" ∈ sat := List.elem_iff.mp htool
    cases se <;>
      simp [runSourceScanners, sastScan, htool, hmemtool, hsem, runSemgrep,
        fieldOf, statusOf, List.lookup]

theorem c5_witness :
    statusOf (runSemgrep (fun _ => none) .fileNotFound) = some ("not_installed") ∧
    (runSourceScanners allOnConfig semgrepMissingEnv []).map Prod.fst =
      ["secrets", "sast", "dependencies", "iac"] ∧
    (((runSourceScanners allOnConfig semgrepMissingEnv []).lookup ("sast")).bind
        (fun j => fieldOf j ("semgrep"))).bind statusOf =
      some ("not_installed") := by
  refine ⟨(c5_missing_tool_isolation.1 (fun _ => none)).1, ?_, ?_⟩
  · have h := c5_missing_tool_isolation.2.2.2.2.1 allOnConfig semgrepMissingEnv []
    simpa [allOnConfig] using h
  · exact c5_missing_tool_isolation.2.2.2.2.2 allOnConfig semgrepMissingEnv []
      rfl (by decide) rfl

/-- C6 (counterexample): files lying under excluded directory components are
*not* omitted from the returned inventory: a Kubernetes manifest and a Helm
chart under `node_modules` are collected (`_find_kubernetes_manifests` and
`_find_helm_charts` apply no exclusion set); a `.war` under `reports/target`
is dropped from `jar_files` but still returned through `war_files` (whose
condition checks only for a `target`/`build` component); and a `.jar` under
`dist` is returned in `jar_files` (`dist` is absent from the compiled-artifact
exclusion set). -/
theorem c6_counterexample :
    ["repo", "node_modules", "deployment.yaml"] ∈
      (detect vendoredTree).kubernetesManifests ∧
    ["repo", "node_modules", "sub"] ∈ (detect vendoredTree).helmCharts ∧
    ["repo", "reports", "target", "app.war"] ∉ (detect vendoredTree).jarFiles ∧
    ["repo", "reports", "target", "app.war"] ∈ (detect vendoredTree).warFiles ∧
    ["repo", "dist", "lib.jar"] ∈ (detect vendoredTree).jarFiles := by
  decide

/-- C6 (amended): the full exclusion set (`node_modules`, `vendor`, `.git`,
`target`, `build`, `dist`, `reports`) is applied to Dockerfiles and build
descriptors only.  The `jar_files` list of compiled artifacts is filtered by
the reduced set `node_modules`, `vendor`, `.git`, `reports` alone — `target`,
`build` and `dist` are not excluded there, so a compiled artifact under a
build-output directory is found as long as none of the four reduced names
occurs on its path.  The `war_files` list applies no exclusion set at all:
every `.war` file whose path holds a `target` or `build` component is
returned, even under an otherwise excluded directory.  Helm charts and
Kubernetes manifests are collected without any exclusion filtering (see the
counterexample). -/
theorem c6_detect_exclusions (t : RepoTree) (rel : CPath) :
    (excludedBy sourceExclusions (fullPath t rel) = true →
        fullPath t rel ∉ (detect t).dockerfiles ∧
        (∀ b ∈ (detect t).buildFiles, b.path ≠ fullPath t rel)) ∧
    (excludedBy javaExclusions (fullPath t rel) = true →
        fullPath t rel ∉ (detect t).jarFiles) ∧
    (rel ∈ t.files → strEnds (fileNameOf rel) (".jar") = true →
        excludedBy javaExclusions (fullPath t rel) = false →
        fullPath t rel ∈ (detect t).jarFiles) ∧
    (rel ∈ t.files → strEnds (fileNameOf rel) (".war") = true →
        ((fullPath t rel).contains ("target") ||
          (fullPath t rel).contains ("build")) = true →
        fullPath t rel ∈ (detect t).warFiles) := by
  refine ⟨fun hex => ⟨?_, ?_⟩, fun hex => ?_, fun hmem hext hnex => ?_,
    fun hmemw hextw htbw => ?_⟩
  · intro hmem
    unfold detect findDockerfiles at hmem
    simp only [List.mem_map, List.mem_filter] at hmem
    obtain ⟨rel2, ⟨hmem2, hpred⟩, heq⟩ := hmem
    have hr : rel2 = rel := List.append_cancel_left heq
    subst hr
    simp [hex] at hpred
  · intro b hb hbp
    unfold detect findBuildFiles at hb
    simp only [List.mem_append, List.mem_map, List.mem_filter] at hb
    rcases hb with ⟨rel2, ⟨hmem2, hpred⟩, rfl⟩ | ⟨rel2, ⟨hmem2, hpred⟩, rfl⟩ <;>
      (simp only at hbp; have hr : rel2 = rel := List.append_cancel_left hbp;
       subst hr; simp [hex] at hpred)
  · intro hmem
    unfold detect findJarFiles at hmem
    rw [List.mem_join] at hmem
    obtain ⟨sub, hsub, hmemsub⟩ := hmem
    simp only [List.mem_map] at hsub
    obtain ⟨ext, hext2, rfl⟩ := hsub
    simp only [List.mem_map, List.mem_filter] at hmemsub
    obtain ⟨rel2, ⟨hmem2, hpred⟩, heq⟩ := hmemsub
    have hr : rel2 = rel := List.append_cancel_left heq
    subst hr
    simp [hex] at hpred
  · have hj : ("." ++ "jar" : String) = ".jar" := rfl
    have hpred : (strEnds (fileNameOf rel) ("." ++ "jar") &&
        !excludedBy javaExclusions (fullPath t rel)) = true := by
      simp [hj, hext, hnex]
    have h1 : fullPath t rel ∈ (t.files.filter (fun rel2 =>
        strEnds (fileNameOf rel2) ("." ++ "jar") &&
        !excludedBy javaExclusions (fullPath t rel2))).map (fullPath t) :=
      List.mem_map_of_mem _ (List.mem_filter.mpr ⟨hmem, hpred⟩)
    show fullPath t rel ∈ findJarFiles t
    unfold findJarFiles
    refine List.mem_join.mpr ⟨_, List.mem_map_of_mem _ (?_ : "jar" ∈ ["jar", "war", "ear"]), h1⟩
    decide
  · have hpred : (strEnds (fileNameOf rel) (".war") &&
        ((fullPath t rel).contains ("target") ||
          (fullPath t rel).contains ("build"))) = true := by
      rw [hextw, htbw]
      rfl
    show fullPath t rel ∈ findWarFiles t
    unfold findWarFiles
    exact List.mem_map_of_mem _ (List.mem_filter.mpr ⟨hmemw, hpred⟩)

theorem c6_witness :
    ["repo", "vendor", "Dockerfile"] ∉ (detect exclusionTree).dockerfiles ∧
    ["repo", "target", "app.jar"] ∈ (detect exclusionTree).jarFiles ∧
    ["repo", "reports", "target", "app.war"] ∈ (detect exclusionTree).warFiles := by
  refine ⟨?_, ?_, ?_⟩
  · exact ((c6_detect_exclusions exclusionTree ["vendor", "Dockerfile"]).1
      (by decide)).1
  · exact (c6_detect_exclusions exclusionTree ["target", "app.jar"]).2.2.1
      (by decide) (by decide) (by decide)
  · exact (c6_detect_exclusions exclusionTree ["reports", "target", "app.war"]).2.2.2
      (by decide) (by decide) (by decide)

/-! ### Registry lemmas for the conflict detector -/

theorem mem_pushNew (vs : List String) (v w : String) :
    w ∈ pushNew vs v ↔ w ∈ vs ∨ w = v := by
  unfold pushNew
  by_cases h : vs.contains v
  · rw [if_pos h]
    constructor
    · exact Or.inl
    · rintro (h2 | rfl)
      · exact h2
      · exact List.elem_iff.mp h
  · rw [if_neg h, List.mem_append, List.mem_singleton]

theorem nodup_pushNew (vs : List String) (v : String) (h : vs.Nodup) :
    (pushNew vs v).Nodup := by
  unfold pushNew
  by_cases hc : vs.contains v
  · rw [if_pos hc]; exact h
  · have hv : v ∉ vs := fun hm => hc (List.elem_iff.mpr hm)
    rw [if_neg hc]
    refine List.nodup_append.mpr ⟨h, List.nodup_singleton v, ?_⟩
    intro a ha hb
    rw [List.mem_singleton] at hb
    subst hb
    exact hv ha

theorem regFind_addVersion_self (reg : List ((String × String) × List String))
    (key : String × String) (v : String) :
    regFind (addVersion reg key v) key =
      some (pushNew ((regFind reg key).getD []) v) := by
  induction reg with
  | nil => simp [addVersion, regFind, pushNew]
  | cons kv rest ih =>
      obtain ⟨k, vs⟩ := kv
      by_cases hk : k = key
      · subst hk
        simp [addVersion, regFind]
      · simp [addVersion, regFind, hk, ih]

theorem regFind_addVersion_ne (reg : List ((String × String) × List String))
    (key key2 : String × String) (v : String) (hne : key2 ≠ key) :
    regFind (addVersion reg key v) key2 = regFind reg key2 := by
  induction reg with
  | nil =>
      have h2 : ¬ key = key2 := fun e => hne e.symm
      simp [addVersion, regFind, h2]
  | cons kv rest ih =>
      obtain ⟨k, vs⟩ := kv
      by_cases hk : k = key
      · subst hk
        have h2 : ¬ k = key2 := fun e => hne e.symm
        simp [addVersion, regFind, h2]
      · simp [addVersion, regFind, hk, ih]

theorem regFind_foldl (pkgs : List Package) :
    ∀ (reg : List ((String × String) × List String)) (key : String × String),
      regFind
        (pkgs.foldl (fun reg p => addVersion reg (p.name, p.ptype) p.version) reg)
        key =
      pkgs.foldl (optStep key) (regFind reg key) := by
  induction pkgs with
  | nil => intro reg key; rfl
  | cons p rest ih =>
      intro reg key
      rw [List.foldl_cons, List.foldl_cons, ih]
      congr 1
      unfold optStep
      by_cases h : (p.name, p.ptype) = key
      · rw [if_pos h, ← h, regFind_addVersion_self]
      · rw [if_neg h, regFind_addVersion_ne]
        exact fun e => h e.symm

theorem regFind_buildRegistry (pkgs : List Package) (key : String × String) :
    regFind (buildRegistry pkgs) key = optVerList key pkgs := by
  unfold buildRegistry optVerList
  rw [regFind_foldl]
  rfl

theorem mem_optFold (key : String × String) (pkgs : List Package) :
    ∀ (acc : Option (List String)) (v : String),
      v ∈ (pkgs.foldl (optStep key) acc).getD [] ↔
        v ∈ acc.getD [] ∨ ∃ p ∈ pkgs, (p.name, p.ptype) = key ∧ p.version = v := by
  induction pkgs with
  | nil => intro acc v; simp
  | cons p rest ih =>
      intro acc v
      rw [List.foldl_cons, ih]
      unfold optStep
      by_cases h : (p.name, p.ptype) = key
      · rw [if_pos h]
        simp only [Option.getD_some, mem_pushNew, List.mem_cons]
        constructor
        · rintro ((hv | rfl) | ⟨q, hq, hkq, hvq⟩)
          · exact Or.inl hv
          · exact Or.inr ⟨p, Or.inl rfl, h, rfl⟩
          · exact Or.inr ⟨q, Or.inr hq, hkq, hvq⟩
        · rintro (hv | ⟨q, (rfl | hq), hkq, hvq⟩)
          · exact Or.inl (Or.inl hv)
          · exact Or.inl (Or.inr hvq.symm)
          · exact Or.inr ⟨q, hq, hkq, hvq⟩
      · rw [if_neg h]
        simp only [List.mem_cons]
        constructor
        · rintro (hv | ⟨q, hq, hkq, hvq⟩)
          · exact Or.inl hv
          · exact Or.inr ⟨q, Or.inr hq, hkq, hvq⟩
        · rintro (hv | ⟨q, (rfl | hq), hkq, hvq⟩)
          · exact Or.inl hv
          · exact absurd hkq h
          · exact Or.inr ⟨q, hq, hkq, hvq⟩

theorem nodup_optFold (key : String × String) (pkgs : List Package) :
    ∀ acc : Option (List String), (acc.getD []).Nodup →
      ((pkgs.foldl (optStep key) acc).getD []).Nodup := by
  induction pkgs with
  | nil => intro acc h; exact h
  | cons p rest ih =>
      intro acc h
      rw [List.foldl_cons]
      apply ih
      unfold optStep
      by_cases hk : (p.name, p.ptype) = key
      · rw [if_pos hk]; exact nodup_pushNew _ _ h
      · rw [if_neg hk]; exact h

theorem optFold_ne_none (key : String × String) (pkgs : List Package) :
    ∀ acc : Option (List String),
      (acc ≠ none ∨ ∃ p ∈ pkgs, (p.name, p.ptype) = key) →
      pkgs.foldl (optStep key) acc ≠ none := by
  induction pkgs with
  | nil =>
      intro acc h
      rcases h with h | ⟨p, hp, _⟩
      · exact h
      · cases hp
  | cons p rest ih =>
      intro acc h
      rw [List.foldl_cons]
      apply ih
      unfold optStep
      by_cases hk : (p.name, p.ptype) = key
      · rw [if_pos hk]
        exact Or.inl (by simp)
      · rw [if_neg hk]
        rcases h with h | ⟨q, hq, hkq⟩
        · exact Or.inl h
        · rcases List.mem_cons.mp hq with rfl | hq2
          · exact absurd hkq hk
          · exact Or.inr ⟨q, hq2, hkq⟩

theorem regFind_mem (reg : List ((String × String) × List String))
    (key : String × String) (vs : List String) (h : regFind reg key = some vs) :
    (key, vs) ∈ reg := by
  induction reg with
  | nil => cases h
  | cons kv rest ih =>
      obtain ⟨k, vs2⟩ := kv
      by_cases hk : k = key
      · subst hk
        rw [regFind, if_pos rfl] at h
        cases h
        exact List.mem_cons_self _ _
      · rw [regFind, if_neg hk] at h
        exact List.mem_cons.mpr (Or.inr (ih h))

theorem mem_keys_addVersion (reg : List ((String × String) × List String))
    (key key2 : String × String) (v : String) :
    key2 ∈ (addVersion reg key v).map Prod.fst ↔
      key2 ∈ reg.map Prod.fst ∨ key2 = key := by
  induction reg with
  | nil => simp [addVersion]
  | cons kv rest ih =>
      obtain ⟨k, vs⟩ := kv
      by_cases hk : k = key
      · subst hk
        rw [addVersion, if_pos rfl, List.map_cons, List.map_cons]
        constructor
        · exact Or.inl
        · rintro (h | rfl)
          · exact h
          · exact List.mem_cons_self _ _
      · rw [addVersion, if_neg hk, List.map_cons, List.map_cons, List.mem_cons,
          List.mem_cons, ih]
        tauto

theorem keys_nodup_addVersion (reg : List ((String × String) × List String))
    (key : String × String) (v : String)
    (h : (reg.map Prod.fst).Nodup) : ((addVersion reg key v).map Prod.fst).Nodup := by
  induction reg with
  | nil => simp [addVersion]
  | cons kv rest ih =>
      obtain ⟨k, vs⟩ := kv
      rw [List.map_cons, List.nodup_cons] at h
      by_cases hk : k = key
      · subst hk
        rw [addVersion, if_pos rfl, List.map_cons, List.nodup_cons]
        exact h
      · rw [addVersion, if_neg hk, List.map_cons, List.nodup_cons]
        refine ⟨fun hmem => ?_, ih h.2⟩
        rcases (mem_keys_addVersion rest key k v).mp hmem with h2 | h2
        · exact h.1 h2
        · exact hk h2

theorem keys_nodup_buildRegistry (pkgs : List Package) :
    ((buildRegistry pkgs).map Prod.fst).Nodup := by
  unfold buildRegistry
  suffices h : ∀ reg : List ((String × String) × List String),
      (reg.map Prod.fst).Nodup →
      ((pkgs.foldl (fun reg p => addVersion reg (p.name, p.ptype) p.version)
          reg).map Prod.fst).Nodup by
    exact h [] (by simp)
  induction pkgs with
  | nil => intro reg h; exact h
  | cons p rest ih =>
      intro reg h
      rw [List.foldl_cons]
      exact ih _ (keys_nodup_addVersion reg _ _ h)

theorem mem_reg_regFind (reg : List ((String × String) × List String))
    (key : String × String) (vs : List String)
    (hnd : (reg.map Prod.fst).Nodup) (hmem : (key, vs) ∈ reg) :
    regFind reg key = some vs := by
  induction reg with
  | nil => cases hmem
  | cons kv rest ih =>
      obtain ⟨k, vs2⟩ := kv
      rw [List.map_cons, List.nodup_cons] at hnd
      rcases List.mem_cons.mp hmem with heq | htail
      · cases heq
        rw [regFind, if_pos rfl]
      · have hk : k ≠ key := by
          intro e
          have hmem2 : key ∈ List.map Prod.fst rest :=
            List.mem_map.mpr ⟨(key, vs), htail, rfl⟩
          rw [← e] at hmem2
          exact hnd.1 hmem2
        rw [regFind, if_neg hk]
        exact ih hnd.2 htail

theorem two_le_length_of_mem_ne (l : List String) (a b : String)
    (ha : a ∈ l) (hb : b ∈ l) (hne : a ≠ b) : 1 < l.length := by
  match l with
  | [] => cases ha
  | [x] =>
      rw [List.mem_singleton] at ha hb
      subst ha; subst hb
      exact absurd rfl hne
  | x :: y :: rest =>
      simp only [List.length_cons]
      omega

theorem exists_ne_of_nodup_lt_length (l : List String)
    (hn : l.Nodup) (hl : 1 < l.length) : ∃ a ∈ l, ∃ b ∈ l, a ≠ b := by
  match l with
  | [] => simp at hl
  | [x] => simp at hl
  | x :: y :: rest =>
      have hx : x ≠ y := by
        rcases List.nodup_cons.mp hn with ⟨hnx, _⟩
        intro e
        exact hnx (e ▸ List.mem_cons_self y rest)
      exact ⟨x, List.mem_cons_self _ _, y,
        List.mem_cons.mpr (Or.inr (List.mem_cons_self _ _)), hx⟩

theorem conflictKeys_sublist (reg : List ((String × String) × List String)) :
    ((reg.filterMap (fun kv =>
        if 1 < kv.2.length then some (conflictOf kv.1.1 kv.1.2 kv.2)
        else none)).map (fun c => (c.package, c.ptype))).Sublist
      (reg.map Prod.fst) := by
  induction reg with
  | nil => simp
  | cons kv rest ih =>
      by_cases h : 1 < kv.2.length
      · simp only [List.filterMap_cons, if_pos h, List.map_cons]
        have hkey : ((conflictOf kv.1.1 kv.1.2 kv.2).package,
            (conflictOf kv.1.1 kv.1.2 kv.2).ptype) = kv.1 := rfl
        rw [hkey]
        exact ih.cons₂ kv.1
      · simp only [List.filterMap_cons, if_neg h, List.map_cons]
        exact ih.cons kv.1

theorem optVerList_spec (pkgs : List Package) (key : String × String)
    (vs : List String) (h : optVerList key pkgs = some vs) :
    vs.Nodup ∧
    ∀ v, v ∈ vs ↔ ∃ p ∈ pkgs, (p.name, p.ptype) = key ∧ p.version = v := by
  constructor
  · have hx := nodup_optFold key pkgs none (by simp)
    unfold optVerList at h
    rw [h] at hx
    simpa using hx
  · intro v
    have hx := mem_optFold key pkgs none v
    unfold optVerList at h
    rw [h] at hx
    simpa using hx

theorem mem_findConflicts (pkgs : List Package) (c : Conflict)
    (hc : c ∈ findConflicts pkgs) :
    ∃ (n t : String) (vs : List String), c = conflictOf n t vs ∧
      optVerList (n, t) pkgs = some vs ∧ 1 < vs.length := by
  unfold findConflicts at hc
  rw [List.mem_filterMap] at hc
  obtain ⟨kv, hkv, hif⟩ := hc
  by_cases h : 1 < kv.2.length
  · rw [if_pos h] at hif
    refine ⟨kv.1.1, kv.1.2, kv.2, (Option.some.inj hif).symm, ?_, h⟩
    rw [← regFind_buildRegistry]
    exact mem_reg_regFind _ _ _ (keys_nodup_buildRegistry pkgs) hkv
  · rw [if_neg h] at hif
    cases hif

theorem conflictOf_mem_findConflicts (pkgs : List Package)
    (key : String × String) (vs : List String)
    (hopt : optVerList key pkgs = some vs) (hlen : 1 < vs.length) :
    conflictOf key.1 key.2 vs ∈ findConflicts pkgs := by
  unfold findConflicts
  rw [List.mem_filterMap]
  refine ⟨(key, vs), ?_, by rw [if_pos hlen]⟩
  apply regFind_mem
  rw [regFind_buildRegistry]
  exact hopt

/-- C2: for every SBOM package list, `_find_conflicts` emits exactly one
conflict record per `(name, type)` group with two or more distinct versions
(no record otherwise), every record carries severity `MEDIUM` and its
duplicate-free version list sorted lexicographically ascending and holding
exactly the groups versions; on the specification SBOM the output is the
single `libX` record with versions `["1.0", "2.0"]`. -/
theorem c2_conflict_detector :
    (∀ (pkgs : List Package), ∀ c ∈ findConflicts pkgs,
        c.severity = "MEDIUM" ∧ List.Sorted strLe c.versions ∧ c.versions.Nodup ∧
        (∀ v, v ∈ c.versions ↔
          ∃ p ∈ pkgs, p.name = c.package ∧ p.ptype = c.ptype ∧ p.version = v)) ∧
    (∀ pkgs : List Package,
        ((findConflicts pkgs).map (fun c => (c.package, c.ptype))).Nodup) ∧
    (∀ (pkgs : List Package) (n t : String),
        (n, t) ∈ (findConflicts pkgs).map (fun c => (c.package, c.ptype)) ↔
        ∃ p ∈ pkgs, ∃ q ∈ pkgs, p.name = n ∧ p.ptype = t ∧ q.name = n ∧
          q.ptype = t ∧ p.version ≠ q.version) ∧
    (findConflicts examplePkgs).map
        (fun c => (c.package, c.ptype, c.versions, c.severity)) =
      [("libX", "maven", ["1.0", "2.0"], "MEDIUM")] := by
  refine ⟨?_, ?_, ?_, by decide⟩
  · intro pkgs c hc
    obtain ⟨n, t, vs, rfl, hopt, hlen⟩ := mem_findConflicts pkgs c hc
    obtain ⟨hnd, hmem⟩ := optVerList_spec pkgs _ _ hopt
    refine ⟨rfl, ?_, ?_, ?_⟩
    · exact List.sorted_insertionSort strLe vs
    · exact ((List.perm_insertionSort strLe vs).nodup_iff).mpr hnd
    · intro v
      have hpm : v ∈ (conflictOf n t vs).versions ↔ v ∈ vs :=
        (List.perm_insertionSort strLe vs).mem_iff
      rw [hpm, hmem v]
      constructor
      · rintro ⟨p, hp, hkey, hv⟩
        injection hkey with h1 h2
        exact ⟨p, hp, h1, h2, hv⟩
      · rintro ⟨p, hp, h1, h2, hv⟩
        exact ⟨p, hp, by rw [h1, h2]; exact rfl, hv⟩
  · intro pkgs
    exact List.Nodup.sublist (conflictKeys_sublist (buildRegistry pkgs))
      (keys_nodup_buildRegistry pkgs)
  · intro pkgs n t
    constructor
    · intro hmem2
      rw [List.mem_map] at hmem2
      obtain ⟨c, hc, hkey⟩ := hmem2
      obtain ⟨n2, t2, vs, rfl, hopt, hlen⟩ := mem_findConflicts pkgs c hc
      have hn2 : n2 = n := congrArg Prod.fst hkey
      have ht2 : t2 = t := congrArg Prod.snd hkey
      subst hn2
      subst ht2
      obtain ⟨hnd, hmem⟩ := optVerList_spec pkgs _ _ hopt
      obtain ⟨a, ha, b, hb, hab⟩ := exists_ne_of_nodup_lt_length vs hnd hlen
      obtain ⟨p, hp, hkp, hvp⟩ := (hmem a).mp ha
      obtain ⟨q, hq, hkq, hvq⟩ := (hmem b).mp hb
      injection hkp with hp1 hp2
      injection hkq with hq1 hq2
      refine ⟨p, hp, q, hq, hp1, hp2, hq1, hq2, ?_⟩
      rw [hvp, hvq]
      exact hab
    · rintro ⟨p, hp, q, hq, hpn, hpt, hqn, hqt, hne⟩
      have hne2 : optVerList (n, t) pkgs ≠ none :=
        optFold_ne_none (n, t) pkgs none (Or.inr ⟨p, hp, by rw [hpn, hpt]⟩)
      obtain ⟨vs, hvs2⟩ := Option.ne_none_iff_exists.mp hne2
      have hvs : optVerList (n, t) pkgs = some vs := hvs2.symm
      obtain ⟨hnd, hmem⟩ := optVerList_spec pkgs _ _ hvs
      have hpa : p.version ∈ vs := (hmem p.version).mpr ⟨p, hp, by rw [hpn, hpt], rfl⟩
      have hqa : q.version ∈ vs := (hmem q.version).mpr ⟨q, hq, by rw [hqn, hqt], rfl⟩
      have hlen : 1 < vs.length := two_le_length_of_mem_ne vs _ _ hpa hqa hne
      have hcmem := conflictOf_mem_findConflicts pkgs (n, t) vs hvs hlen
      rw [List.mem_map]
      exact ⟨conflictOf n t vs, hcmem, rfl⟩

/-! ### Aggregator lemmas: key preservation -/

theorem except_bind_ok {α β : Type} (a : α) (f : α → Except String β) :
    (Except.ok a >>= f) = f a := rfl

theorem updateCat_keys (s : Summary) (cat : String) (f : SevCounts → SevCounts) :
    (updateCat s cat f).map Prod.fst = s.map Prod.fst := by
  unfold updateCat
  rw [List.map_map]
  apply List.map_congr_left
  intro e _
  by_cases h : e.1 = cat <;> simp [h]

theorem foldlM_except_keys {α : Type} (f : Summary → α → Except String Summary)
    (hf : ∀ s a s2, f s a = .ok s2 → s2.map Prod.fst = s.map Prod.fst)
    (l : List α) :
    ∀ s s2 : Summary, l.foldlM f s = .ok s2 → s2.map Prod.fst = s.map Prod.fst := by
  induction l with
  | nil =>
      intro s s2 h
      cases h
      rfl
  | cons a rest ih =>
      intro s s2 h
      rw [List.foldlM_cons] at h
      cases hfa : f s a with
      | error e => rw [hfa] at h; cases h
      | ok s1 =>
          rw [hfa, except_bind_ok] at h
          rw [ih s1 s2 h, hf s a s1 hfa]

theorem findingLoop_keys (cat sevField dflt : String) (items : List JVal)
    (s s2 : Summary) (h : findingLoop cat sevField dflt items s = .ok s2) :
    s2.map Prod.fst = s.map Prod.fst := by
  unfold findingLoop at h
  refine foldlM_except_keys _ ?_ items s s2 h
  intro s a s2 hb
  cases hg : pyGet a sevField (.str dflt) with
  | error e => rw [hg] at hb; cases hb
  | ok sevJ =>
      rw [hg, except_bind_ok] at hb
      cases hl : pyLowerJ sevJ with
      | error e => rw [hl] at hb; cases hb
      | ok sev =>
          rw [hl, except_bind_ok] at hb
          cases hb
          exact updateCat_keys _ _ _

theorem trivyResultsLoop_keys (cat innerKey sevField dflt : String)
    (rs : List JVal) (s s2 : Summary)
    (h : trivyResultsLoop cat innerKey sevField dflt rs s = .ok s2) :
    s2.map Prod.fst = s.map Prod.fst := by
  unfold trivyResultsLoop at h
  refine foldlM_except_keys _ ?_ rs s s2 h
  intro s a s2 hb
  cases hc : pyContains a innerKey with
  | error e => rw [hc] at hb; cases hb
  | ok has =>
      rw [hc, except_bind_ok] at hb
      by_cases hh : has
      · rw [if_pos hh] at hb
        cases hidx : pyIndex a innerKey with
        | error e => rw [hidx] at hb; cases hb
        | ok inner =>
            rw [hidx, except_bind_ok] at hb
            cases hit : pyIter inner with
            | error e => rw [hit] at hb; cases hb
            | ok items =>
                rw [hit, except_bind_ok] at hb
                exact findingLoop_keys _ _ _ _ _ _ hb
      · rw [if_neg hh] at hb
        cases hb
        rfl

theorem secretsStep_keys (results : List (String × JVal)) (s s2 : Summary)
    (h : secretsStep results s = .ok s2) : s2.map Prod.fst = s.map Prod.fst := by
  unfold secretsStep at h
  cases hg : pyGet (topGetD results ("secrets") (.obj [])) ("gitleaks") .null with
  | error e => rw [hg] at h; cases h
  | ok gl =>
      rw [hg, except_bind_ok] at h
      by_cases ht : gl.truthy
      · rw [if_pos ht] at h
        cases hl : pyLen gl with
        | error e => rw [hl] at h; cases h
        | ok n =>
            rw [hl, except_bind_ok] at h
            cases h
            exact updateCat_keys _ _ _
      · rw [if_neg ht] at h
        cases h
        rfl

theorem depsStep_keys (results : List (String × JVal)) (s s2 : Summary)
    (h : depsStep results s = .ok s2) : s2.map Prod.fst = s.map Prod.fst := by
  unfold depsStep at h
  cases hg : pyGet (topGetD results ("dependencies") (.obj [])) ("trivy") (.obj []) with
  | error e => rw [hg] at h; cases h
  | ok trivy =>
      rw [hg, except_bind_ok] at h
      cases hg2 : pyGet trivy ("Results") .null with
      | error e => rw [hg2] at h; cases h
      | ok resultsJ =>
          rw [hg2, except_bind_ok] at h
          by_cases ht : resultsJ.truthy
          · rw [if_pos ht] at h
            cases hit : pyIter resultsJ with
            | error e => rw [hit] at h; cases h
            | ok rs =>
                rw [hit, except_bind_ok] at h
                exact trivyResultsLoop_keys _ _ _ _ _ _ _ h
          · rw [if_neg ht] at h
            cases h
            rfl

theorem iacTrivyStep_keys (results : List (String × JVal)) (s s2 : Summary)
    (h : iacTrivyStep results s = .ok s2) : s2.map Prod.fst = s.map Prod.fst := by
  unfold iacTrivyStep at h
  cases hg : pyGet (topGetD results ("iac") (.obj [])) ("trivy") (.obj []) with
  | error e => rw [hg] at h; cases h
  | ok trivy =>
      rw [hg, except_bind_ok] at h
      cases hg2 : pyGet trivy ("Results") .null with
      | error e => rw [hg2] at h; cases h
      | ok resultsJ =>
          rw [hg2, except_bind_ok] at h
          by_cases ht : resultsJ.truthy
          · rw [if_pos ht] at h
            cases hit : pyIter resultsJ with
            | error e => rw [hit] at h; cases h
            | ok rs =>
                rw [hit, except_bind_ok] at h
                exact trivyResultsLoop_keys _ _ _ _ _ _ _ h
          · rw [if_neg ht] at h
            cases h
            rfl

theorem checkovStep_keys (results : List (String × JVal)) (s s2 : Summary)
    (h : checkovStep results s = .ok s2) : s2.map Prod.fst = s.map Prod.fst := by
  unfold checkovStep at h
  cases hg : pyGet (topGetD results ("iac") (.obj [])) ("checkov") .null with
  | error e => rw [hg] at h; cases h
  | ok ck =>
      rw [hg, except_bind_ok] at h
      by_cases ht : ck.truthy
      · rw [if_pos ht] at h
        split at h
        · cases h
          exact updateCat_keys _ _ _
        · rename_i fs
          by_cases h1 : fs.any (fun f => f.1 = "results")
          · rw [if_pos h1] at h
            cases hg2 : pyGet (.obj fs) ("results") (.obj []) with
            | error e => rw [hg2] at h; cases h
            | ok inner =>
                rw [hg2, except_bind_ok] at h
                cases hg3 : pyGet inner ("failed_checks") (.arr []) with
                | error e => rw [hg3] at h; cases h
                | ok failed =>
                    rw [hg3, except_bind_ok] at h
                    cases hn : pyLen failed with
                    | error e => rw [hn] at h; cases h
                    | ok n =>
                        rw [hn, except_bind_ok] at h
                        cases h
                        exact updateCat_keys _ _ _
          · rw [if_neg h1] at h
            cases h
            rfl
        · cases h
          rfl
      · rw [if_neg ht] at h
        cases h
        rfl

theorem consistencyStep_keys (results : List (String × JVal)) (s s2 : Summary)
    (h : consistencyStep results s = .ok s2) : s2.map Prod.fst = s.map Prod.fst := by
  unfold consistencyStep at h
  cases hg : pyGet (topGetD results ("consistency") (.obj [])) ("findings") .null with
  | error e => rw [hg] at h; cases h
  | ok findings =>
      rw [hg, except_bind_ok] at h
      by_cases ht : findings.truthy
      · rw [if_pos ht] at h
        cases hit : pyIter findings with
        | error e => rw [hit] at h; cases h
        | ok items =>
            rw [hit, except_bind_ok] at h
            exact findingLoop_keys _ _ _ _ _ _ h
      · rw [if_neg ht] at h
        cases h
        rfl

theorem sastStep_keys (results : List (String × JVal)) (s s2 : Summary)
    (h : sastStep results s = .ok s2) : s2.map Prod.fst = s.map Prod.fst := by
  unfold sastStep at h
  by_cases ht : (topGetD results ("sast") .null).truthy
  case neg =>
    rw [if_neg ht] at h
    cases h
    rfl
  case pos =>
    rw [if_pos ht] at h
    split at h
    · rename_i fs heq
      by_cases h1 : fs.any (fun f => f.1 = "results")
      · rw [if_pos h1] at h
        cases hidx : pyIndex (.obj fs) ("results") with
        | error e => rw [hidx] at h; cases h
        | ok inner =>
            rw [hidx, except_bind_ok] at h
            cases hit : pyIter inner with
            | error e => rw [hit] at h; cases h
            | ok items =>
                rw [hit, except_bind_ok] at h
                refine foldlM_except_keys _ ?_ items s s2 h
                intro s a s2 hb
                cases hg : pyGet a ("extra") (.obj []) with
                | error e => rw [hg] at hb; cases hb
                | ok extra =>
                    rw [hg, except_bind_ok] at hb
                    cases hg2 : pyGet extra ("severity") (.str ("medium")) with
                    | error e => rw [hg2] at hb; cases hb
                    | ok sevJ =>
                        rw [hg2, except_bind_ok] at hb
                        cases hl : pyLowerJ sevJ with
                        | error e => rw [hl] at hb; cases hb
                        | ok sev =>
                            rw [hl, except_bind_ok] at hb
                            by_cases he : sev = "error"
                            · rw [if_pos he] at hb
                              cases hb
                              exact updateCat_keys _ _ _
                            · rw [if_neg he] at hb
                              by_cases hw : sev = "warning"
                              · rw [if_pos hw] at hb
                                cases hb
                                exact updateCat_keys _ _ _
                              · rw [if_neg hw] at hb
                                cases hb
                                exact updateCat_keys _ _ _
      · rw [if_neg h1] at h
        by_cases h2 : fs.any (fun f => f.1 = "spotbugs")
        · rw [if_pos h2] at h
          cases hsb : pyIndex (.obj fs) ("spotbugs") with
          | error e => rw [hsb] at h; cases h
          | ok sb =>
              rw [hsb, except_bind_ok] at h
              split at h
              · rename_i gs
                by_cases h3 : gs.any (fun g => g.1 = "findings")
                · rw [if_pos h3] at h
                  cases hfd : pyIndex (.obj gs) ("findings") with
                  | error e => rw [hfd] at h; cases h
                  | ok fd =>
                      rw [hfd, except_bind_ok] at h
                      cases hn : pyLen fd with
                      | error e => rw [hn] at h; cases h
                      | ok n =>
                          rw [hn, except_bind_ok] at h
                          cases h
                          exact updateCat_keys _ _ _
                · rw [if_neg h3] at h
                  cases h
                  rfl
              · cases h
                rfl
        · rw [if_neg h2] at h
          cases h
          rfl
    · cases h
      exact updateCat_keys _ _ _
    · cases h
      rfl

theorem lintingStep_keys (results : List (String × JVal)) (s s2 : Summary)
    (h : lintingStep results s = .ok s2) : s2.map Prod.fst = s.map Prod.fst := by
  unfold lintingStep at h
  by_cases ht : (topGetD results ("linting") .null).truthy
  case neg =>
    rw [if_neg ht] at h
    cases h
    rfl
  case pos =>
    rw [if_pos ht] at h
    split at h
    · rename_i fs heq
      by_cases h1 : fs.any (fun f => f.1 = "hadolint")
      · rw [if_pos h1] at h
        cases hidx : pyIndex (.obj fs) ("hadolint") with
        | error e => rw [hidx] at h; cases h
        | ok hl =>
            rw [hidx, except_bind_ok] at h
            cases hit : pyIter hl with
            | error e => rw [hit] at h; cases h
            | ok items =>
                rw [hit, except_bind_ok] at h
                refine foldlM_except_keys _ ?_ items s s2 h
                intro s a s2 hb
                cases hg : pyGet a ("status") .null with
                | error e => rw [hg] at hb; cases hb
                | ok st =>
                    rw [hg, except_bind_ok] at hb
                    by_cases hi : st.eqStr ("issues_found")
                    · rw [if_pos hi] at hb
                      cases hb
                      exact updateCat_keys _ _ _
                    · rw [if_neg hi] at hb
                      cases hb
                      rfl
      · rw [if_neg h1] at h
        cases h
        rfl
    · cases h
      exact updateCat_keys _ _ _
    · cases h
      rfl

theorem generateSummary_keys (results : List (String × JVal)) (s2 : Summary)
    (h : generateSummary results = .ok s2) : s2.map Prod.fst = catNames := by
  unfold generateSummary at h
  cases h1 : secretsStep results summaryInit with
  | error e => rw [h1] at h; cases h
  | ok sA =>
  rw [h1, except_bind_ok] at h
  cases h2 : depsStep results sA with
  | error e => rw [h2] at h; cases h
  | ok sB =>
  rw [h2, except_bind_ok] at h
  cases h3 : iacTrivyStep results sB with
  | error e => rw [h3] at h; cases h
  | ok sC =>
  rw [h3, except_bind_ok] at h
  cases h4 : checkovStep results sC with
  | error e => rw [h4] at h; cases h
  | ok sD =>
  rw [h4, except_bind_ok] at h
  cases h5 : consistencyStep results sD with
  | error e => rw [h5] at h; cases h
  | ok sE =>
  rw [h5, except_bind_ok] at h
  cases h6 : sastStep results sE with
  | error e => rw [h6] at h; cases h
  | ok sF =>
  rw [h6, except_bind_ok] at h
  cases h7 : lintingStep results sF with
  | error e => rw [h7] at h; cases h
  | ok sG =>
  rw [h7, except_bind_ok] at h
  cases h
  rw [lintingStep_keys results sF s2 h7, sastStep_keys results sE sF h6,
    consistencyStep_keys results sD sE h5, checkovStep_keys results sC sD h4,
    iacTrivyStep_keys results sB sC h3, depsStep_keys results sA sB h2,
    secretsStep_keys results summaryInit sA h1]
  decide

/-- C3: `_generate_summary` initializes all eight categories with all five
severity counters at zero before any payload-specific extraction — the empty
results map yields exactly the all-zero table — and every returned summary
carries exactly the eight fixed category keys. -/
theorem c3_summary_categories :
    generateSummary [] = .ok summaryInit ∧
    summaryInit =
      [("secrets", SevCounts.zero), ("dependencies", SevCounts.zero),
       ("iac", SevCounts.zero), ("sast", SevCounts.zero),
       ("containers", SevCounts.zero), ("helm", SevCounts.zero),
       ("linting", SevCounts.zero), ("consistency", SevCounts.zero)] ∧
    (∀ (results : List (String × JVal)) (s : Summary),
        generateSummary results = .ok s → s.map Prod.fst = catNames) := by
  refine ⟨rfl, by decide, ?_⟩
  intro results s h
  exact generateSummary_keys results s h

theorem c3_witness :
    generateSummary [] = .ok summaryInit ∧ summaryInit.map Prod.fst = catNames :=
  ⟨c3_summary_categories.1,
   c3_summary_categories.2.2 [] summaryInit c3_summary_categories.1⟩

/-! ### Aggregator lemmas: severity extraction -/

theorem except_pure_bind {α β : Type} (a : α) (f : α → Except String β) :
    ((pure a : Except String α) >>= f) = f a := rfl

theorem except_map_ok {α β : Type} (a : α) (f : α → β) :
    (Except.ok a : Except String α).map f = .ok (f a) := rfl

theorem except_map_pure {α β : Type} (a : α) (f : α → β) :
    (pure a : Except String α).map f = .ok (f a) := rfl

theorem updateCat_cons (k : String) (v : SevCounts) (rest : Summary)
    (cat : String) (f : SevCounts → SevCounts) :
    updateCat ((k, v) :: rest) cat f =
      (if k = cat then (k, f v) else (k, v)) :: updateCat rest cat f := by
  unfold updateCat
  rw [List.map_cons]

theorem lookup_updateCat (s : Summary) (cat cat2 : String)
    (f : SevCounts → SevCounts) :
    (updateCat s cat f).lookup cat2 =
      if cat2 = cat then (s.lookup cat2).map f else s.lookup cat2 := by
  induction s with
  | nil => by_cases h : cat2 = cat <;> simp [updateCat, List.lookup, h]
  | cons e rest ih =>
      obtain ⟨k, v⟩ := e
      rw [updateCat_cons]
      by_cases hk : k = cat
      · rw [if_pos hk]
        by_cases hc : cat2 = k
        · have hb : (cat2 == k) = true := beq_iff_eq.mpr hc
          have hcc : cat2 = cat := hc.trans hk
          simp only [List.lookup, hb, if_pos hcc]
          rfl
        · have hb : (cat2 == k) = false := beq_eq_false_iff_ne.mpr hc
          simp only [List.lookup, hb]
          rw [ih]
      · rw [if_neg hk]
        by_cases hc : cat2 = k
        · have hb : (cat2 == k) = true := beq_iff_eq.mpr hc
          have hcc : ¬ cat2 = cat := fun e => hk (hc.symm.trans e)
          simp only [List.lookup, hb, if_neg hcc]
        · have hb : (cat2 == k) = false := beq_eq_false_iff_ne.mpr hc
          simp only [List.lookup, hb]
          rw [ih]

theorem lookup_bucketFold_self (cat : String) (sevs : List String) :
    ∀ s : Summary,
      (bucketFold cat sevs s).lookup cat =
        (s.lookup cat).map
          (fun c => sevs.foldl (fun c sev => c.bucket (pyLower sev)) c) := by
  induction sevs with
  | nil =>
      intro s
      unfold bucketFold
      rw [List.foldl_nil]
      cases s.lookup cat <;> simp
  | cons sev rest ih =>
      intro s
      unfold bucketFold at *
      rw [List.foldl_cons, ih, lookup_updateCat, if_pos rfl]
      cases s.lookup cat <;> simp

theorem lookup_sastFold (sevs : List String) :
    ∀ s : Summary,
      (sastFold sevs s).lookup ("sast") =
        (s.lookup ("sast")).map (fun c => sevs.foldl sastBucket c) := by
  induction sevs with
  | nil =>
      intro s
      unfold sastFold
      rw [List.foldl_nil]
      cases s.lookup ("sast") <;> simp
  | cons sev rest ih =>
      intro s
      unfold sastFold at *
      rw [List.foldl_cons]
      have hstep :
          (if pyLower sev = "error" then
            updateCat s ("sast") (fun c => c.add ("high") 1)
          else if pyLower sev = "warning" then
            updateCat s ("sast") (fun c => c.add ("medium") 1)
          else updateCat s ("sast") (fun c => c.add ("info") 1)) =
          updateCat s ("sast") (fun c => sastBucket c sev) := by
        unfold sastBucket
        by_cases h1 : pyLower sev = "error"
        · rw [if_pos h1]
          congr 1
          funext c
          rw [if_pos h1]
        · rw [if_neg h1]
          by_cases h2 : pyLower sev = "warning"
          · rw [if_pos h2]
            congr 1
            funext c
            rw [if_neg h1, if_pos h2]
          · rw [if_neg h2]
            congr 1
            funext c
            rw [if_neg h1, if_neg h2]
      rw [hstep, ih, lookup_updateCat, if_pos rfl]
      cases s.lookup ("sast") <;> simp

theorem countLower_cons (sev : String) (rest : List String) (k : String) :
    countLower (sev :: rest) k =
      (if pyLower sev = k then 1 else 0) + countLower rest k := by
  unfold countLower
  rw [List.filter_cons]
  by_cases h : pyLower sev = k
  · simp [h, Nat.add_comm]
  · simp [h]

theorem countInfoLower_cons (sev : String) (rest : List String) :
    countInfoLower (sev :: rest) =
      (if pyLower sev ≠ "critical" ∧ pyLower sev ≠ "high" ∧
          pyLower sev ≠ "medium" ∧ pyLower sev ≠ "low" then 1 else 0) +
        countInfoLower rest := by
  unfold countInfoLower
  rw [List.filter_cons]
  by_cases h : pyLower sev ≠ "critical" ∧ pyLower sev ≠ "high" ∧
      pyLower sev ≠ "medium" ∧ pyLower sev ≠ "low"
  · simp [h, Nat.add_comm]
  · simp [h]

theorem countSastInfo_cons (sev : String) (rest : List String) :
    countSastInfo (sev :: rest) =
      (if pyLower sev ≠ "error" ∧ pyLower sev ≠ "warning" then 1 else 0) +
        countSastInfo rest := by
  unfold countSastInfo
  rw [List.filter_cons]
  by_cases h : pyLower sev ≠ "error" ∧ pyLower sev ≠ "warning"
  · simp [h, Nat.add_comm]
  · simp [h]

theorem bucket_counts (sevs : List String) :
    ∀ c : SevCounts,
      sevs.foldl (fun c sev => c.bucket (pyLower sev)) c =
        { critical := c.critical + countLower sevs ("critical"),
          high := c.high + countLower sevs ("high"),
          medium := c.medium + countLower sevs ("medium"),
          low := c.low + countLower sevs ("low"),
          info := c.info + countInfoLower sevs } := by
  induction sevs with
  | nil =>
      intro c
      simp [countLower, countInfoLower]
  | cons sev rest ih =>
      intro c
      rw [List.foldl_cons, ih]
      by_cases h1 : pyLower sev = "critical"
      · simp [SevCounts.bucket, SevCounts.add, sevKeys, h1, countLower_cons,
          countInfoLower_cons]
        omega
      · by_cases h2 : pyLower sev = "high"
        · simp [SevCounts.bucket, SevCounts.add, sevKeys, h1, h2,
            countLower_cons, countInfoLower_cons]
          omega
        · by_cases h3 : pyLower sev = "medium"
          · simp [SevCounts.bucket, SevCounts.add, sevKeys, h1, h2, h3,
              countLower_cons, countInfoLower_cons]
            omega
          · by_cases h4 : pyLower sev = "low"
            · simp [SevCounts.bucket, SevCounts.add, sevKeys, h1, h2, h3, h4,
                countLower_cons, countInfoLower_cons]
              omega
            · by_cases h5 : pyLower sev = "info"
              · simp [SevCounts.bucket, SevCounts.add, sevKeys, h1, h2, h3, h4,
                  h5, countLower_cons, countInfoLower_cons]
                omega
              · simp [SevCounts.bucket, SevCounts.add, sevKeys, h1, h2, h3, h4,
                  h5, countLower_cons, countInfoLower_cons]
                omega

theorem sastBucket_counts (sevs : List String) :
    ∀ c : SevCounts,
      sevs.foldl sastBucket c =
        { critical := c.critical,
          high := c.high + countLower sevs ("error"),
          medium := c.medium + countLower sevs ("warning"),
          low := c.low,
          info := c.info + countSastInfo sevs } := by
  induction sevs with
  | nil =>
      intro c
      simp [countLower, countSastInfo]
  | cons sev rest ih =>
      intro c
      rw [List.foldl_cons, ih]
      by_cases h1 : pyLower sev = "error"
      · simp [sastBucket, SevCounts.add, h1, countLower_cons, countSastInfo_cons]
        omega
      · by_cases h2 : pyLower sev = "warning"
        · simp [sastBucket, SevCounts.add, h1, h2, countLower_cons,
            countSastInfo_cons]
          omega
        · simp [sastBucket, SevCounts.add, h1, h2, countLower_cons,
            countSastInfo_cons]
          omega

theorem findingLoop_eval (cat sevField dflt : String) (g : List String) :
    ∀ s : Summary,
      findingLoop cat sevField dflt (g.map (sevEnc sevField)) s =
        .ok (bucketFold cat g s) := by
  induction g with
  | nil => intro s; rfl
  | cons sev rest ih =>
      intro s
      unfold findingLoop at *
      rw [List.map_cons, List.foldlM_cons]
      have hget : pyGet (sevEnc sevField sev) sevField (.str dflt) =
          .ok (.str sev) := by
        unfold sevEnc pyGet
        simp [List.find?]
      have hlow : pyLowerJ (.str sev) = .ok (pyLower sev) := rfl
      simp only [hget, except_bind_ok, hlow, except_pure_bind]
      rw [ih]
      rfl

theorem trivyResultsLoop_eval (cat innerKey sevField dflt : String)
    (enc : List String → JVal)
    (henc : ∀ g, enc g = JVal.obj [(innerKey, .arr (g.map (sevEnc sevField)))])
    (groups : List (List String)) :
    ∀ s : Summary,
      trivyResultsLoop cat innerKey sevField dflt (groups.map enc) s =
        .ok (bucketFold cat groups.join s) := by
  induction groups with
  | nil => intro s; rfl
  | cons g rest ih =>
      intro s
      unfold trivyResultsLoop at *
      rw [List.map_cons, List.foldlM_cons, henc]
      have hcont : pyContains
          (JVal.obj [(innerKey, .arr (g.map (sevEnc sevField)))]) innerKey =
          .ok true := by
        unfold pyContains
        simp [List.any]
      have hidx : pyIndex
          (JVal.obj [(innerKey, .arr (g.map (sevEnc sevField)))]) innerKey =
          .ok (.arr (g.map (sevEnc sevField))) := by
        unfold pyIndex
        simp [List.find?]
      have hiter : pyIter (JVal.arr (g.map (sevEnc sevField))) =
          .ok (g.map (sevEnc sevField)) := rfl
      simp only [hcont, except_bind_ok, if_true, hidx, hiter]
      rw [findingLoop_eval]
      rw [except_bind_ok, ih]
      have hjoin : (g :: rest).join = g ++ rest.join := rfl
      rw [hjoin]
      unfold bucketFold
      rw [List.foldl_append]

theorem sastLoop_eval (sevs : List String) :
    ∀ s : Summary,
      List.foldlM (fun s f => do
          let extra ← pyGet f ("extra") (.obj [])
          let sevJ ← pyGet extra ("severity") (.str ("medium"))
          let sev ← pyLowerJ sevJ
          if sev = "error" then pure (updateCat s ("sast") (fun c => c.add ("high") 1))
          else if sev = "warning" then
            pure (updateCat s ("sast") (fun c => c.add ("medium") 1))
          else pure (updateCat s ("sast") (fun c => c.add ("info") 1)))
        s (sevs.map semgrepEnc) =
        .ok (sastFold sevs s) := by
  induction sevs with
  | nil => intro s; rfl
  | cons sev rest ih =>
      intro s
      rw [List.map_cons, List.foldlM_cons]
      have hget : pyGet (semgrepEnc sev) ("extra") (.obj []) =
          .ok (.obj [("severity", .str sev)]) := by
        unfold semgrepEnc pyGet
        simp [List.find?]
      have hget2 : pyGet (JVal.obj [("severity", .str sev)]) ("severity")
          (.str ("medium")) = .ok (.str sev) := by
        unfold pyGet
        simp [List.find?]
      have hlow : pyLowerJ (.str sev) = .ok (pyLower sev) := rfl
      simp only [hget, except_bind_ok, hget2, hlow, except_pure_bind]
      by_cases h1 : pyLower sev = "error"
      · rw [if_pos h1, except_pure_bind, ih]
        unfold sastFold
        rw [List.foldl_cons, if_pos h1]
      · rw [if_neg h1]
        by_cases h2 : pyLower sev = "warning"
        · rw [if_pos h2, except_pure_bind, ih]
          unfold sastFold
          rw [List.foldl_cons, if_neg h1, if_pos h2]
        · rw [if_neg h2, except_pure_bind, ih]
          unfold sastFold
          rw [List.foldl_cons, if_neg h1, if_neg h2]

/-- C7: the per-category severity extraction of `_generate_summary`: every
gitleaks finding is counted as high; every Trivy dependency vulnerability and
IaC misconfiguration is bucketed by its severity string lower-cased, with
anything outside the five canonical levels counted as info; every
semgrep-shaped SAST finding maps `error` to high and `warning` to medium, and
anything else to info. -/
theorem c7_severity_extraction :
    (∀ findings : List JVal,
        (generateSummary (secretsScenario findings)).map
          (fun s => s.lookup ("secrets")) =
        .ok (some { critical := 0, high := findings.length, medium := 0,
                    low := 0, info := 0 })) ∧
    (∀ groups : List (List String),
        (generateSummary (depsScenario groups)).map
          (fun s => s.lookup ("dependencies")) =
        .ok (some { critical := countLower groups.join ("critical"),
                    high := countLower groups.join ("high"),
                    medium := countLower groups.join ("medium"),
                    low := countLower groups.join ("low"),
                    info := countInfoLower groups.join })) ∧
    (∀ groups : List (List String),
        (generateSummary (iacScenario groups)).map
          (fun s => s.lookup ("iac")) =
        .ok (some { critical := countLower groups.join ("critical"),
                    high := countLower groups.join ("high"),
                    medium := countLower groups.join ("medium"),
                    low := countLower groups.join ("low"),
                    info := countInfoLower groups.join })) ∧
    (∀ sevs : List String,
        (generateSummary (sastScenario sevs)).map
          (fun s => s.lookup ("sast")) =
        .ok (some { critical := 0, high := countLower sevs ("error"),
                    medium := countLower sevs ("warning"), low := 0,
                    info := countSastInfo sevs })) := by
  refine ⟨?_, ?_, ?_, ?_⟩
  · intro findings
    cases findings with
    | nil => rfl
    | cons f rest => rfl
  · intro groups
    have hdeps : depsStep (depsScenario groups) summaryInit =
        .ok (bucketFold ("dependencies") groups.join summaryInit) := by
      cases groups with
      | nil => rfl
      | cons g rest =>
          exact trivyResultsLoop_eval ("dependencies") ("Vulnerabilities")
            ("Severity") ("UNKNOWN") vulnGroupEnc (fun g => rfl) (g :: rest)
            summaryInit
    have hA : secretsStep (depsScenario groups) summaryInit = .ok summaryInit := rfl
    have hC : ∀ s : Summary, iacTrivyStep (depsScenario groups) s = .ok s :=
      fun s => rfl
    have hD : ∀ s : Summary, checkovStep (depsScenario groups) s = .ok s :=
      fun s => rfl
    have hE : ∀ s : Summary, consistencyStep (depsScenario groups) s = .ok s :=
      fun s => rfl
    have hF : ∀ s : Summary, sastStep (depsScenario groups) s = .ok s :=
      fun s => rfl
    have hG : ∀ s : Summary, lintingStep (depsScenario groups) s = .ok s :=
      fun s => rfl
    unfold generateSummary
    rw [hA, except_bind_ok, hdeps, except_bind_ok]
    simp only [hC, hD, hE, hF, hG, except_bind_ok, except_pure_bind]
    rw [except_map_pure, lookup_bucketFold_self,
      show summaryInit.lookup ("dependencies") = some SevCounts.zero from rfl]
    simp only [Option.map]
    rw [bucket_counts]
    simp [SevCounts.zero]
  · intro groups
    have hiac : iacTrivyStep (iacScenario groups) summaryInit =
        .ok (bucketFold ("iac") groups.join summaryInit) := by
      cases groups with
      | nil => rfl
      | cons g rest =>
          exact trivyResultsLoop_eval ("iac") ("Misconfigurations")
            ("Severity") ("UNKNOWN") misconfGroupEnc (fun g => rfl) (g :: rest)
            summaryInit
    have hA : secretsStep (iacScenario groups) summaryInit = .ok summaryInit := rfl
    have hB : ∀ s : Summary, depsStep (iacScenario groups) s = .ok s :=
      fun s => rfl
    have hD : ∀ s : Summary, checkovStep (iacScenario groups) s = .ok s :=
      fun s => rfl
    have hE : ∀ s : Summary, consistencyStep (iacScenario groups) s = .ok s :=
      fun s => rfl
    have hF : ∀ s : Summary, sastStep (iacScenario groups) s = .ok s :=
      fun s => rfl
    have hG : ∀ s : Summary, lintingStep (iacScenario groups) s = .ok s :=
      fun s => rfl
    unfold generateSummary
    rw [hA, except_bind_ok]
    rw [hB, except_bind_ok, hiac, except_bind_ok]
    simp only [hD, hE, hF, hG, except_bind_ok, except_pure_bind]
    rw [except_map_pure, lookup_bucketFold_self,
      show summaryInit.lookup ("iac") = some SevCounts.zero from rfl]
    simp only [Option.map]
    rw [bucket_counts]
    simp [SevCounts.zero]
  · intro sevs
    have hsast : sastStep (sastScenario sevs) summaryInit =
        .ok (sastFold sevs summaryInit) := sastLoop_eval sevs summaryInit
    have hA : secretsStep (sastScenario sevs) summaryInit = .ok summaryInit := rfl
    have hB : ∀ s : Summary, depsStep (sastScenario sevs) s = .ok s :=
      fun s => rfl
    have hC : ∀ s : Summary, iacTrivyStep (sastScenario sevs) s = .ok s :=
      fun s => rfl
    have hD : ∀ s : Summary, checkovStep (sastScenario sevs) s = .ok s :=
      fun s => rfl
    have hE : ∀ s : Summary, consistencyStep (sastScenario sevs) s = .ok s :=
      fun s => rfl
    have hG : ∀ s : Summary, lintingStep (sastScenario sevs) s = .ok s :=
      fun s => rfl
    unfold generateSummary
    rw [hA, except_bind_ok]
    rw [hB, except_bind_ok]
    rw [hC, except_bind_ok]
    rw [hD, except_bind_ok]
    rw [hE, except_bind_ok]
    rw [hsast, except_bind_ok]
    rw [hG, except_bind_ok]
    rw [except_map_pure, lookup_sastFold,
      show summaryInit.lookup ("sast") = some SevCounts.zero from rfl]
    simp only [Option.map]
    rw [sastBucket_counts]
    simp [SevCounts.zero]

set_option maxRecDepth 4096 in
theorem c2_witness :
    ((findConflicts examplePkgs).headD default).severity = "MEDIUM" ∧
    (findConflicts examplePkgs).map
        (fun c => (c.package, c.ptype, c.versions, c.severity)) =
      [("libX", "maven", ["1.0", "2.0"], "MEDIUM")] := by
  constructor
  · have hc : (findConflicts examplePkgs).headD default ∈ findConflicts examplePkgs := by
      decide
    exact (c2_conflict_detector.1 examplePkgs _ hc).1
  · exact c2_conflict_detector.2.2.2

end Cerberus
